import Mathlib

/-!
Verification of the delta-synchronization core of the EAA_Automation
repository: the composite-key identity model (`app/ops/job_rtdb.py`,
`app/ops/competition_rtdb.py`, `app/job_platforms/unstop.py`,
`app/competition_platforms/unstop.py`), the baseline-snapshot /
expiry-pruning step (`snapshot_prune_delete_and_save`), the page-by-page
delta/early-stop scan (`scrape_jobs` / `scrape_competitions`), and the
orchestrator wiring (`app/services/jobs_service.py`,
`app/services/competitions_service.py`).

The Python code is shallowly embedded: JSON-ish values become `PyVal`,
dicts become association lists, the remote store becomes a pure key/value
list, network page fetching becomes a page-indexed item function, and the
per-key best-effort remote delete becomes an explicit failure predicate.
Python's `int(...)`/`float(...)` string grammars are modelled in their
ASCII decimal fragment (optional surrounding whitespace, optional sign,
digit runs with Python's underscores-between-digits rule, and for floats
an optional fraction and exponent); unicode digits and non-decimal bases
never occur in this data and are not modelled.
-/

/-- A Python value as it occurs in the scraped JSON rows: `None`, `int`,
finite `float` (modelled as an exact rational), or `str`. These are the
only value shapes the dedup/key/deadline logic of the repository inspects. -/
inductive PyVal where
  | vnone : PyVal
  | vint : Int → PyVal
  | vfloat : Rat → PyVal
  | vstr : String → PyVal
deriving DecidableEq

/-- A Python dict restricted to the flat, string-keyed shape the dedup logic
reads: an association list from field name to value. -/
abbrev Obj : Type := List (String × PyVal)

/-- Python's `obj.get(k)`, defaulting to `None`; the first binding wins, as
in a dict (stores built from JSON have unique keys). -/
def Obj.get (o : Obj) (k : String) : PyVal :=
  match List.find? (fun p => p.1 == k) o with
  | some p => p.2
  | none => PyVal.vnone

/-- The ASCII fragment of the whitespace set stripped by Python's
`str.strip()`: space, tab, newline, carriage return, vertical tab, form
feed. -/
def isPySpace (c : Char) : Bool :=
  decide (c.toNat = 32) || decide (c.toNat = 9) || decide (c.toNat = 10) ||
  decide (c.toNat = 13) || decide (c.toNat = 11) || decide (c.toNat = 12)

/-- Strips `isPySpace` characters from both ends of a character list. -/
def stripList (cs : List Char) : List Char :=
  ((cs.dropWhile isPySpace).reverse.dropWhile isPySpace).reverse

/-- Python `str.strip()` (ASCII whitespace fragment). -/
def pyStrip (s : String) : String := String.mk (stripList s.data)

/-- Python `str.lower()` (ASCII fragment: only A-Z are mapped, which covers
every string this code base lowercases). -/
def pyLower (s : String) : String := String.mk (s.data.map Char.toLower)

/-- Python `str(x)` for the modelled value shapes. Ints render in decimal,
matching Python; `None` renders as the four-letter word Python uses. A
float renders via the rational's `toString`, which differs cosmetically
from Python's float repr but agrees at every call site of this code base,
where `str` of a numeric value is only tested for blankness or fed to the
(then failing) date parser. -/
def pyStr : PyVal → String
  | PyVal.vnone => "None"
  | PyVal.vint n => toString n
  | PyVal.vfloat q => toString q
  | PyVal.vstr s => s

/-- Python truthiness for the modelled value shapes: `None`, `0`, `0.0` and
the empty string are falsy. -/
def pyTruthy : PyVal → Bool
  | PyVal.vnone => false
  | PyVal.vint n => n != 0
  | PyVal.vfloat q => q != 0
  | PyVal.vstr s => s != ""

/-- Python `x or ""` followed by `str(...)`: the string of `x` when truthy,
else the empty string. -/
def strOrEmpty (x : PyVal) : String :=
  if pyTruthy x then pyStr x else ""

/-- Checks the tail of a digit run in Python's numeric-literal grammar: an
underscore may only occur between digits (`1_000`), never doubled, leading
or trailing. -/
def usDigitsTail : List Char → Bool
  | [] => true
  | '_' :: c :: cs => c.isDigit && usDigitsTail cs
  | c :: cs => c.isDigit && usDigitsTail cs

/-- A valid digit run (nonempty, underscores only between digits). -/
def usDigitsOk : List Char → Bool
  | [] => false
  | c :: cs => c.isDigit && usDigitsTail cs

/-- Numeric value of a digit run, ignoring underscores. -/
def digitsVal (cs : List Char) : Nat :=
  (cs.filter (fun c => c != '_')).foldl (fun a c => 10 * a + (c.toNat - 48)) 0

/-- Number of actual digits in a digit run (underscores excluded). -/
def digitsLen (cs : List Char) : Nat :=
  (cs.filter (fun c => c != '_')).length

/-- Python `int(s)` on a string: optional surrounding whitespace, optional
sign, then a decimal digit run. A float-shaped string such as "3.0" is NOT
accepted (Python raises `ValueError` there). -/
def pyIntOfString (s : String) : Option Int :=
  match stripList s.data with
  | '+' :: rest => if usDigitsOk rest then some (Int.ofNat (digitsVal rest)) else none
  | '-' :: rest => if usDigitsOk rest then some (-(Int.ofNat (digitsVal rest))) else none
  | rest => if usDigitsOk rest then some (Int.ofNat (digitsVal rest)) else none

/-- A signed digit run (used for float exponents). -/
def signedDigits : List Char → Option Int
  | '+' :: ds => if usDigitsOk ds then some (Int.ofNat (digitsVal ds)) else none
  | '-' :: ds => if usDigitsOk ds then some (-(Int.ofNat (digitsVal ds))) else none
  | ds => if usDigitsOk ds then some (Int.ofNat (digitsVal ds)) else none

/-- The optional exponent suffix of a float literal: empty means exponent 0;
`e`/`E` followed by a signed digit run; anything else is a parse error. -/
def expSuffix : List Char → Option Int
  | [] => some 0
  | 'e' :: rest => signedDigits rest
  | 'E' :: rest => signedDigits rest
  | _ => none

/-- Is the character part of a digit group (digit or underscore)? -/
def isDigitGroupChar (c : Char) : Bool := c.isDigit || c == '_'

/-- The exact rational value `(a + f / 10^len) * 10^e` of a float literal
with integer part `a`, fraction digits of value `f` and count `len`, and
exponent `e`, written as one `mkRat` so that it evaluates by kernel
reduction. -/
def floatVal (a f len : Nat) (e : Int) : Rat :=
  mkRat (((a * 10 ^ len + f : Nat) : Int) * ((10 ^ e.toNat : Nat) : Int))
    (10 ^ len * 10 ^ (-e).toNat)

/-- The unsigned core of Python's `float(s)` grammar: integer part, optional
`.` and fraction part (at least one digit overall), optional exponent.
Returns the exact rational value. -/
def pyFloatCore (cs : List Char) : Option Rat :=
  let g1 := cs.takeWhile isDigitGroupChar
  let rest1 := cs.dropWhile isDigitGroupChar
  let p2 : List Char × List Char :=
    match rest1 with
    | '.' :: t => (t.takeWhile isDigitGroupChar, t.dropWhile isDigitGroupChar)
    | _ => ([], rest1)
  if g1.isEmpty && p2.1.isEmpty then none
  else if !(g1.isEmpty || usDigitsOk g1) then none
  else if !(p2.1.isEmpty || usDigitsOk p2.1) then none
  else
    match expSuffix p2.2 with
    | none => none
    | some e => some (floatVal (digitsVal g1) (digitsVal p2.1) (digitsLen p2.1) e)

/-- Python `float(s)` on a string, as an exact rational: optional whitespace
and sign around `pyFloatCore`. The `inf`/`nan` literals are mapped to
`none`: at every call site of this code base the result is immediately fed
to `int(...)`, which raises on a non-finite float inside a `try` whose
handler produces the same outcome as a parse failure. -/
def pyFloatOfString (s : String) : Option Rat :=
  match stripList s.data with
  | '+' :: rest => pyFloatCore rest
  | '-' :: rest => (pyFloatCore rest).map Neg.neg
  | rest => pyFloatCore rest

/-- Python `int(f)` on a finite float: truncation toward zero. -/
def truncQ (q : Rat) : Int := q.num.tdiv (q.den : Int)

/-- Python `int(x)` for the modelled value shapes: ints pass through, floats
truncate toward zero, strings go through the integer-literal parse, and
`None` raises (modelled as `none`). -/
def pyInt : PyVal → Option Int
  | PyVal.vnone => none
  | PyVal.vint n => some n
  | PyVal.vfloat q => some (truncQ q)
  | PyVal.vstr s => pyIntOfString s

/-- Python `float(x)` for the modelled value shapes. -/
def pyFloat : PyVal → Option Rat
  | PyVal.vnone => none
  | PyVal.vint n => some (mkRat n 1)
  | PyVal.vfloat q => some q
  | PyVal.vstr s => pyFloatOfString s

/-- A Python `datetime.date`; component validity is enforced by `mkDate`. -/
structure PyDate where
  year : Int
  month : Int
  day : Int
deriving DecidableEq

/-- The Gregorian leap-year rule used by `datetime.date`. -/
def isLeapYear (y : Int) : Bool := (y % 4 == 0 && y % 100 != 0) || y % 400 == 0

/-- Days in a month of the proleptic Gregorian calendar. -/
def daysInMonth (y m : Int) : Int :=
  if m == 2 then (if isLeapYear y then 29 else 28)
  else if m == 4 || m == 6 || m == 9 || m == 11 then 30
  else 31

/-- `datetime.date(y, m, d)`: `none` models the `ValueError` raised on an
out-of-range component (year outside MINYEAR..MAXYEAR, bad month or day). -/
def mkDate (y m d : Int) : Option PyDate :=
  if 1 ≤ y ∧ y ≤ 9999 ∧ 1 ≤ m ∧ m ≤ 12 ∧ 1 ≤ d ∧ d ≤ daysInMonth y m then
    some ⟨y, m, d⟩
  else none

/-- Strict `<` on dates, lexicographic on (year, month, day), exactly as
Python compares `date` values. -/
def dateBefore (a b : PyDate) : Bool :=
  decide (a.year < b.year ∨ (a.year = b.year ∧
    (a.month < b.month ∨ (a.month = b.month ∧ a.day < b.day))))

/-- Python `text.split(sep)` for a single-character separator, over
character lists: splitting never drops empty pieces (`"a--b"` gives three
parts, `""` gives one empty part), exactly as Python's `str.split` with an
explicit separator. -/
def splitOnChar (sep : Char) : List Char → List Char → List (List Char)
  | [], acc => [acc.reverse]
  | c :: cs, acc =>
    if c == sep then acc.reverse :: splitOnChar sep cs []
    else splitOnChar sep cs (c :: acc)

/-- `_parse_deadline_yyyy_mm_dd` from `app/ops/job_rtdb.py`, duplicated
verbatim in `app/ops/competition_rtdb.py`: `None` parses to nothing;
otherwise `str(s).strip()`, empty means nothing, strings of length at
least 10 are truncated to their first 10 characters, the text is split on
"-" into exactly three parts, each part goes through `int(...)`, and the
three integers build a `date`; any failure yields nothing. -/
def parse_deadline_yyyy_mm_dd (v : PyVal) : Option PyDate :=
  match v with
  | PyVal.vnone => none
  | w =>
    let txt := stripList (pyStr w).data
    if txt = [] then none
    else
      let txt2 := if 10 ≤ txt.length then txt.take 10 else txt
      match splitOnChar '-' txt2 [] with
      | [ys, ms, ds] =>
        match pyIntOfString (String.mk ys), pyIntOfString (String.mk ms), pyIntOfString (String.mk ds) with
        | some y, some m, some d => mkDate y m d
        | _, _, _ => none
      | _ => none

/-- `_norm_str` from `app/ops/job_rtdb.py`:
`str(x).strip().lower() if x is not None else ""`. -/
def norm_str (x : PyVal) : String :=
  match x with
  | PyVal.vnone => ""
  | w => pyLower (pyStrip (pyStr w))

/-- Does the text start with the pattern (first argument)? -/
def listStartsWith : List Char → List Char → Bool
  | [], _ => true
  | _ :: _, [] => false
  | p :: ps, c :: cs => p == c && listStartsWith ps cs

/-- Does the pattern occur as a contiguous run in the text? -/
def listContainsSub (needle : List Char) : List Char → Bool
  | [] => needle.isEmpty
  | c :: cs => listStartsWith needle (c :: cs) || listContainsSub needle cs

/-- Python's substring test `needle in haystack`. -/
def strContains (hay needle : String) : Bool := listContainsSub needle.data hay.data

/-- `_infer_platform` from `app/ops/job_rtdb.py`: the normalized explicit
`platform` field when nonempty; otherwise "unstop" when any of the three
url fields mentions unstop.com; otherwise the empty string. -/
def infer_platform (obj : Obj) : String :=
  let p := norm_str (obj.get ("platform"))
  if p ≠ "" then p
  else if strContains (strOrEmpty (obj.get ("application_url"))) ("unstop.com") then "unstop"
  else if strContains (strOrEmpty (obj.get ("short_url"))) ("unstop.com") then "unstop"
  else if strContains (strOrEmpty (obj.get ("public_url"))) ("unstop.com") then "unstop"
  else ""

/-- `_infer_opp_type` from `app/ops/job_rtdb.py`: the normalized
`oppurtunity_type` field when nonempty, else the first nonempty normalized
legacy field among subtype, type, opportunity_type, opportunity. -/
def infer_opp_type (obj : Obj) : String :=
  let ot := norm_str (obj.get ("oppurtunity_type"))
  if ot ≠ "" then ot
  else
    let s1 := norm_str (obj.get ("subtype"))
    if s1 ≠ "" then s1
    else
      let s2 := norm_str (obj.get ("type"))
      if s2 ≠ "" then s2
      else
        let s3 := norm_str (obj.get ("opportunity_type"))
        if s3 ≠ "" then s3
        else
          let s4 := norm_str (obj.get ("opportunity"))
          if s4 ≠ "" then s4 else ""

/-- `_extract_composite_key` from `app/ops/job_rtdb.py`. Note two
source-level particulars this definition preserves: (1) when either the
inferred platform or the inferred opportunity type is empty the function
returns `None` -- there is no sentinel fallback on this path, unlike the
`_make_*_key` builders below; (2) the id parse is plain `int(raw)` with no
float fallback, after a blank-string guard. -/
def extract_composite_key (obj : Obj) : Option String :=
  let platform := infer_platform obj
  let opp_type := infer_opp_type obj
  if platform = "" ∨ opp_type = "" then none
  else
    match obj.get ("job_id") with
    | PyVal.vnone => none
    | raw =>
      if pyStrip (pyStr raw) = "" then none
      else
        match pyInt raw with
        | some jid => some (platform ++ ":" ++ opp_type ++ ":" ++ toString jid)
        | none => none

/-- `_coerce_int` from `app/ops/competition_rtdb.py`: `int(value)`, falling
back to `int(float(value))`; `None` and a double parse failure give
nothing. -/
def coerce_int (value : PyVal) : Option Int :=
  match value with
  | PyVal.vnone => none
  | v =>
    match pyInt v with
    | some n => some n
    | none =>
      match pyFloat v with
      | some q => some (truncQ q)
      | none => none

/-- `_make_comp_key` from `app/ops/competition_rtdb.py`: coerce the id via
`_coerce_int`; normalize platform and type by strip-lower-strip with the
`"unknown_platform"` / `"unknown_type"` sentinels for empty results. -/
def make_comp_key_rtdb (platform comp_type comp_id : PyVal) : Option String :=
  match coerce_int comp_id with
  | none => none
  | some cid =>
    let p0 := pyStrip (match platform with
      | PyVal.vnone => ""
      | v => pyLower (pyStrip (pyStr v)))
    let t0 := pyStrip (match comp_type with
      | PyVal.vnone => ""
      | v => pyLower (pyStrip (pyStr v)))
    let p := if p0 = "" then "unknown_platform" else p0
    let t := if t0 = "" then "unknown_type" else t0
    some (p ++ ":" ++ t ++ ":" ++ toString cid)

/-- `_coerce_job_id` from `app/job_platforms/unstop.py`: missing or blank
`job_id`, or a failing plain `int(...)` parse, gives nothing; there is no
float fallback on this path. -/
def coerce_job_id (row : Obj) : Option Int :=
  match row.get ("job_id") with
  | PyVal.vnone => none
  | v =>
    if pyStrip (pyStr v) = "" then none
    else pyInt v

/-- `_norm_opp_type` from `app/job_platforms/unstop.py`:
`str(row.get("oppurtunity_type") or "").strip().lower()`. -/
def norm_opp_type (row : Obj) : String :=
  pyLower (pyStrip (strOrEmpty (row.get ("oppurtunity_type"))))

/-- `_make_job_key` from `app/job_platforms/unstop.py`: strip-lower both
components, fall back to the `"unknown_platform"` / `"unknown_type"`
sentinels when empty, and join with the integer id. -/
def make_job_key (platform opp_type : String) (job_id : Int) : String :=
  let p0 := pyLower (pyStrip platform)
  let t0 := pyLower (pyStrip opp_type)
  let p := if p0 = "" then "unknown_platform" else p0
  let t := if t0 = "" then "unknown_type" else t0
  p ++ ":" ++ t ++ ":" ++ toString job_id

/-- `_coerce_comp_id` from `app/competition_platforms/unstop.py`: blank
guard first, then `int(v)` with an `int(float(v))` fallback. -/
def coerce_comp_id (v : PyVal) : Option Int :=
  match v with
  | PyVal.vnone => none
  | w =>
    if pyStrip (pyStr w) = "" then none
    else
      match pyInt w with
      | some n => some n
      | none =>
        match pyFloat w with
        | some q => some (truncQ q)
        | none => none

/-- `_make_comp_key` from `app/competition_platforms/unstop.py` (the
adapter-side, string-typed variant). -/
def make_comp_key (platform comp_type : String) (comp_id : Int) : String :=
  let p0 := pyLower (pyStrip platform)
  let t0 := pyLower (pyStrip comp_type)
  let p := if p0 = "" then "unknown_platform" else p0
  let t := if t0 = "" then "unknown_type" else t0
  p ++ ":" ++ t ++ ":" ++ toString comp_id

/-- The jobs adapter's per-row key computation inside `scrape_jobs`:
`_make_job_key("unstop", _norm_opp_type(mapped), jid)` guarded by
`_coerce_job_id(mapped)`. -/
def jobKeyOf (row : Obj) : Option String :=
  match coerce_job_id row with
  | none => none
  | some jid => some (make_job_key ("unstop") (norm_opp_type row) jid)

/-- The competitions adapter's per-row key computation inside
`scrape_competitions`: `_make_comp_key("unstop", comp_type, cid)` with
`comp_type = str(row.get("competition_type") or "").strip()`, guarded by
`_coerce_comp_id(row.get("competition_id"))`. -/
def compKeyOf (row : Obj) : Option String :=
  match coerce_comp_id (row.get ("competition_id")) with
  | none => none
  | some cid => some (make_comp_key ("unstop") (pyStrip (strOrEmpty (row.get ("competition_type")))) cid)

/-- A raw page item as delivered by the paginated source client: `some obj`
for a JSON object, `none` for a non-dict value (skipped by the
`isinstance(item, dict)` guard in both scan loops). -/
abbrev RawItem : Type := Option Obj

/-- The accumulator of one `scrape_jobs` / `scrape_competitions` invocation,
mirroring the `delta_rows` list and the `stats` dict (the jobs adapter
names the id counter `skipped_missing_job_id` and the competitions adapter
`skipped_missing_competition_id`; both are `skipped_missing_id` here, and
`early_stop` is `early_stop_all_seen_page`). -/
structure ScanState where
  delta : List Obj
  pages_fetched : Nat
  items_seen : Nat
  kept_delta : Nat
  skipped_existing : Nat
  skipped_missing_id : Nat
  early_stop : Nat
deriving DecidableEq

/-- The state at the top of `scrape_*`: empty delta, all counters zero. -/
def ScanState.start : ScanState := ⟨[], 0, 0, 0, 0, 0, 0⟩

/-- One iteration of the `for item in items:` loop shared verbatim by
`scrape_jobs` and `scrape_competitions`. The pair carries the accumulated
state and the page's `page_all_seen` flag. `normalize` stands for the
out-of-scope field normalizer (`remap_row(extract_row(item))` for jobs,
`extract_row(item)` for competitions; per the spec a pure, never-failing
collaborator), and `keyOf` is the adapter's per-row key computation
(`jobKeyOf` / `compKeyOf`), `none` meaning the id did not coerce. -/
def stepItem (keyOf : Obj → Option String) (normalize : Obj → Obj)
    (existing : Finset String) (acc : ScanState × Bool) (item : RawItem) :
    ScanState × Bool :=
  match item with
  | none => acc
  | some obj =>
    let row := normalize obj
    let st := { acc.1 with items_seen := acc.1.items_seen + 1 }
    match keyOf row with
    | none =>
      ({ st with skipped_missing_id := st.skipped_missing_id + 1 }, false)
    | some key =>
      if key ∈ existing then
        ({ st with skipped_existing := st.skipped_existing + 1 }, acc.2)
      else
        ({ st with delta := st.delta ++ [row], kept_delta := st.kept_delta + 1 }, false)

/-- The whole per-page item loop: fold `stepItem` over the page's items,
starting from `page_all_seen = True`. -/
def processItems (keyOf : Obj → Option String) (normalize : Obj → Obj)
    (existing : Finset String) (items : List RawItem) (st : ScanState) :
    ScanState × Bool :=
  items.foldl (stepItem keyOf normalize existing) (st, true)

/-- The disposition of one raw item in the early-stop bookkeeping: non-dict
items are not inspected by the loop body and leave `page_all_seen` alone;
a dict item keeps the flag only when its key resolves and is already in
`existing`. -/
def itemAllSeen (keyOf : Obj → Option String) (normalize : Obj → Obj)
    (existing : Finset String) (item : RawItem) : Bool :=
  match item with
  | none => true
  | some obj =>
    match keyOf (normalize obj) with
    | some k => decide (k ∈ existing)
    | none => false

/-- Pure restatement of the page-level early-stop test. -/
def pageFullySeen (keyOf : Obj → Option String) (normalize : Obj → Obj)
    (existing : Finset String) (items : List RawItem) : Bool :=
  items.all (itemAllSeen keyOf normalize existing)

/-- The rows a page contributes to `delta_rows`: normalized dict items whose
key resolves and is not in `existing`. -/
def pageKeptRows (keyOf : Obj → Option String) (normalize : Obj → Obj)
    (existing : Finset String) (items : List RawItem) : List Obj :=
  items.filterMap (fun item =>
    match item with
    | none => none
    | some obj =>
      let row := normalize obj
      match keyOf row with
      | none => none
      | some key => if key ∈ existing then none else some row)

/-- The number of dict items on a page (each bumps `items_seen`). -/
def dictCount (items : List RawItem) : Nat := items.countP (fun it => it.isSome)

/-- The `while True:` pagination loop of `scrape_jobs` and
`scrape_competitions`, with explicit fuel: each iteration consumes one
unit and `none` models insufficient fuel (with `max_pages = 0` and a
never-empty, never-fully-seen source the Python loop runs forever, so the
model is partial by fuel). `fetchPage p` stands for the item list
extracted from the page-`p` payload (`payload["data"]["data"] or []`);
the fetch itself either returns or raises out of the whole function, so a
successful run sees it as a total function. The loop first checks
`max_pages and page > max_pages`, then fetches and counts the page, stops
on an empty page, classifies items, and stops setting the early-stop flag
when the page stayed fully seen under `stop_when_page_all_seen`. -/
def scanAux (keyOf : Obj → Option String) (normalize : Obj → Obj)
    (fetchPage : Nat → List RawItem) (existing : Finset String)
    (maxPages : Nat) (stopWhenAllSeen : Bool) :
    Nat → Nat → ScanState → Option ScanState
  | 0, _, _ => none
  | fuel + 1, page, st =>
    if maxPages ≠ 0 ∧ maxPages < page then some st
    else
      let items := fetchPage page
      let st1 := { st with pages_fetched := st.pages_fetched + 1 }
      if items = [] then some st1
      else
        let out := processItems keyOf normalize existing items st1
        if stopWhenAllSeen ∧ out.2 = true then
          some { out.1 with early_stop := 1 }
        else
          scanAux keyOf normalize fetchPage existing maxPages stopWhenAllSeen fuel (page + 1) out.1

/-- `scrape_jobs` from `app/job_platforms/unstop.py` (the `unstop` entry
point forwards to it): the pagination loop started at page 1 from the
zeroed state, with the jobs key computation. The Python default
`existing_job_keys=None` becomes the empty set via `or set()`. -/
def scrape_jobs (normalize : Obj → Obj) (fetchPage : Nat → List RawItem)
    (existing : Finset String) (maxPages : Nat) (stopWhenAllSeen : Bool)
    (fuel : Nat) : Option ScanState :=
  scanAux jobKeyOf normalize fetchPage existing maxPages stopWhenAllSeen fuel 1 ScanState.start

/-- `scrape_competitions` from `app/competition_platforms/unstop.py` (the
`unstop_competitions` entry point forwards to it). -/
def scrape_competitions (normalize : Obj → Obj) (fetchPage : Nat → List RawItem)
    (existing : Finset String) (maxPages : Nat) (stopWhenAllSeen : Bool)
    (fuel : Nat) : Option ScanState :=
  scanAux compKeyOf normalize fetchPage existing maxPages stopWhenAllSeen fuel 1 ScanState.start

/-- The remote collection node: an ordered mapping from push key to value,
where `none` stands for a non-dict value (skipped by the
`isinstance(v, dict)` guards). -/
abbrev Store : Type := List (String × Option Obj)

/-- Whether `snapshot_prune_delete_and_save` classifies one store value as
expired for `today`: dict values only, with a parseable deadline strictly
before today. -/
def entryExpired (deadlineField : String) (today : PyDate) : Option Obj → Bool
  | none => false
  | some obj =>
    match parse_deadline_yyyy_mm_dd (obj.get deadlineField) with
    | some dl => dateBefore dl today
    | none => false

/-- The `expired_keys` list built by the classification pass of
`snapshot_prune_delete_and_save`. -/
def expiredKeysOf (deadlineField : String) (today : PyDate) (store : Store) : List String :=
  (store.filter (fun e => entryExpired deadlineField today e.2)).map (fun e => e.1)

/-- The fields of `BaselineSnapshotResult` that carry information used by
the rest of the pipeline, plus the post-prune remote state (`cleaned` is
both the re-fetched collection and the content of the saved snapshot
file). The filesystem fields (`deleted_local_files`, `saved_file`) and the
constant metadata (`node_path`, `today_ist`) are omitted. -/
structure BaselineResult where
  ok : Bool
  expired_keys_count : Nat
  expired_deleted : Nat
  kept_count : Nat
  cleaned : Store
  existing_key_set : Finset String
deriving DecidableEq

/-- `snapshot_prune_delete_and_save` from `app/ops/job_rtdb.py` and its
duplicate in `app/ops/competition_rtdb.py`, over a pure store. `extractKey`
is the per-record composite-key computation (`_extract_composite_key` for
jobs; `_make_comp_key` over the three fields for competitions).
`failDel pk = true` models the per-key remote delete raising inside its
`try/except: pass`: the key is then still counted in `expired_keys_count`
but not in `expired_deleted_from_firebase`, and the record survives the
re-fetch. The existing-key set collects, over dict records of the cleaned
state, the truthy (nonempty) keys. -/
def snapshot_prune_delete_and_save (extractKey : Obj → Option String)
    (deadlineField : String) (failDel : String → Bool) (today : PyDate)
    (store : Store) : BaselineResult :=
  let expired := expiredKeysOf deadlineField today store
  let deleted := (expired.filter (fun pk => !failDel pk)).length
  let cleaned := store.filter (fun e => !(expired.contains e.1 && !failDel e.1))
  let keys := ((cleaned.filterMap (fun e => e.2.bind extractKey)).filter (fun k => k != "")).toFinset
  { ok := true
    expired_keys_count := expired.length
    expired_deleted := deleted
    kept_count := cleaned.length
    cleaned := cleaned
    existing_key_set := keys }

/-- The record-level key computation the competitions baseline feeds to
`_make_comp_key`: the `platform`, `competition_type` and `competition_id`
fields of the stored record. -/
def comp_baseline_key (obj : Obj) : Option String :=
  make_comp_key_rtdb (obj.get ("platform")) (obj.get ("competition_type")) (obj.get ("competition_id"))

/-- Keyword parameters of `unstop` in `app/job_platforms/unstop.py`
(`per_page` and `max_pages` are positional-or-keyword, the last two are
keyword-only; all four carry defaults). -/
def unstopJobsKeywords : List String :=
  [("per_page"), ("max_pages"), ("existing_job_keys"), ("stop_when_page_all_seen")]

/-- The keyword arguments supplied at the `extractor(...)` call in
`app/services/jobs_service.py` (the jobs orchestrator, step 1). -/
def jobsServiceCallKeywords : List String :=
  [("per_page"), ("max_pages"), ("existing_job_ids"), ("stop_when_page_all_seen")]

/-- Keyword parameters of `unstop_competitions` in
`app/competition_platforms/unstop.py`. -/
def unstopCompsKeywords : List String :=
  [("per_page"), ("max_pages"), ("existing_comp_keys"), ("stop_when_page_all_seen")]

/-- The keyword arguments supplied at the `extractor(...)` call in
`app/services/competitions_service.py`. -/
def compsServiceCallKeywords : List String :=
  [("per_page"), ("max_pages"), ("existing_comp_keys"), ("stop_when_page_all_seen")]

/-- Python keyword binding for a call that passes every argument by
keyword: it binds exactly when every supplied keyword names an accepted
parameter (all the parameters above have defaults, so none is required);
an unexpected keyword raises `TypeError` before the function body runs. -/
def kwargsBind (accepted supplied : List String) : Bool :=
  supplied.all (fun k => accepted.contains k)

/-- The competitions orchestrator `competitions()` from
`app/services/competitions_service.py`, restricted to the delta pipeline:
run the baseline (deadline field `application_deadline`, the service
default), then invoke the unstop competitions adapter with the baseline's
existing-key set, `max_pages = DEFAULT_MAX_PAGES = 1`,
`stop_when_page_all_seen=True` (fuel 2 suffices for one page). File
artifacts and the upload step carry the returned delta verbatim and are
omitted. -/
def competitions_run (normalize : Obj → Obj) (fetchPage : Nat → List RawItem)
    (failDel : String → Bool) (today : PyDate) (store : Store) :
    BaselineResult × Option ScanState :=
  let baseline := snapshot_prune_delete_and_save comp_baseline_key
    ("application_deadline") failDel today store
  (baseline, scrape_competitions normalize fetchPage baseline.existing_key_set 1 true 2)

/-- Number of dict items on a page classified as already-existing
(`skipped_existing` contributions). -/
def pageExistingCount (keyOf : Obj → Option String) (normalize : Obj → Obj)
    (existing : Finset String) (items : List RawItem) : Nat :=
  items.countP (fun item =>
    match item with
    | none => false
    | some obj =>
      match keyOf (normalize obj) with
      | some key => decide (key ∈ existing)
      | none => false)

/-- Number of dict items on a page whose id does not coerce
(`skipped_missing_id` contributions). -/
def pageMissingCount (keyOf : Obj → Option String) (normalize : Obj → Obj)
    (items : List RawItem) : Nat :=
  items.countP (fun item =>
    match item with
    | none => false
    | some obj => (keyOf (normalize obj)).isNone)

/-- The counter relationships a scan state is expected to satisfy: items
seen split exactly into kept, skipped-existing and skipped-missing-id;
the kept counter equals the delta list's length; the early-stop flag is a
0/1 value. -/
def StatsInv (st : ScanState) : Prop :=
  st.items_seen = st.kept_delta + st.skipped_existing + st.skipped_missing_id ∧
  st.kept_delta = st.delta.length ∧
  (st.early_stop = 0 ∨ st.early_stop = 1)

/-! ### Helper lemmas -/

theorem toNat_ofNat_valid (n : Nat) (h : Nat.isValidChar n) :
    (Char.ofNat n).toNat = n := by
  simp [Char.ofNat, h]
  simp [Char.ofNatAux, Char.toNat, UInt32.toNat, UInt32.ofNatCore]

theorem isPySpace_toLower (c : Char) : isPySpace c.toLower = isPySpace c := by
  simp only [Char.toLower]
  split
  case isTrue h =>
    have hvalid : Nat.isValidChar (c.toNat + 32) := by left; omega
    have hv : (Char.ofNat (c.toNat + 32)).toNat = c.toNat + 32 :=
      toNat_ofNat_valid (c.toNat + 32) hvalid
    have l : isPySpace (Char.ofNat (c.toNat + 32)) = false := by
      simp [isPySpace, hv]; omega
    have r : isPySpace c = false := by
      simp [isPySpace]; omega
    rw [l, r]
  case isFalse h => rfl

theorem stripList_map_toLower (cs : List Char) :
    stripList (cs.map Char.toLower) = (stripList cs).map Char.toLower := by
  have hfun : (isPySpace ∘ Char.toLower) = isPySpace := funext fun c => isPySpace_toLower c
  simp only [stripList, List.dropWhile_map, hfun, ← List.map_reverse]

theorem pyLower_pyStrip (s : String) : pyLower (pyStrip s) = pyStrip (pyLower s) := by
  apply String.ext
  simp [pyLower, pyStrip, stripList_map_toLower]

/-! ### C8: composite-key equality is case-insensitive on platform/type -/

/-- C8: composite-key equality is case-insensitive on platform and item-type
and exact on the integer id: for all platform/type strings equal up to
letter case and the same integer id, both adapter-side key builders return
equal key strings; in particular
`build_key("Unstop","Job",42) = build_key("unstop","job",42)`. -/
theorem composite_key_case_insensitive :
    (∀ p₁ t₁ p₂ t₂ : String, ∀ n : Int,
      pyLower p₁ = pyLower p₂ → pyLower t₁ = pyLower t₂ →
      make_job_key p₁ t₁ n = make_job_key p₂ t₂ n ∧
      make_comp_key p₁ t₁ n = make_comp_key p₂ t₂ n) ∧
    make_job_key ("Unstop") ("Job") 42 = make_job_key ("unstop") ("job") 42 := by
  constructor
  · intro p₁ t₁ p₂ t₂ n hp ht
    have hp' : pyLower (pyStrip p₁) = pyLower (pyStrip p₂) := by
      rw [pyLower_pyStrip, pyLower_pyStrip, hp]
    have ht' : pyLower (pyStrip t₁) = pyLower (pyStrip t₂) := by
      rw [pyLower_pyStrip, pyLower_pyStrip, ht]
    constructor
    · simp only [make_job_key, hp', ht']
    · simp only [make_comp_key, hp', ht']
  · decide

/-- Witness for C8 at concrete inputs. -/
theorem composite_key_case_insensitive_witness :
    make_job_key ("UNSTOP") (" Job ") 7 = make_job_key ("unstop") (" jOb ") 7 ∧
    make_comp_key ("UNSTOP") (" Job ") 7 = make_comp_key ("unstop") (" jOb ") 7 :=
  composite_key_case_insensitive.1 ("UNSTOP") (" Job ") ("unstop") (" jOb ") 7
    (by decide) (by decide)

/-! ### C4: sentinel fallbacks for missing platform / item-type -/

/-- C4 counterexample: a record whose id is coercible (`int 42`) but whose
platform and item-type are absent gets NO key from the jobs-baseline
composite-key builder `_extract_composite_key` -- the claimed
`unknown_platform`/`unknown_type` sentinel fallback does not exist on that
path. -/
theorem extract_composite_key_no_sentinel :
    coerce_int (PyVal.vint 42) = some 42 ∧
    extract_composite_key ([(("job_id"), PyVal.vint 42)]) = none := by
  decide

/-- C4 (amended): once the id coerces, the competition-baseline builder
`_make_comp_key` (`competition_rtdb.py`) always returns a key: a missing
(`None`) or empty-after-normalization platform/item-type falls back to the
`unknown_platform`/`unknown_type` sentinel, independently per component,
and a nonempty component appears lower-cased and trimmed in the returned
key; the adapter-side builders `_make_job_key`
(`job_platforms/unstop.py`) and `_make_comp_key`
(`competition_platforms/unstop.py`) behave the same way on their string
arguments; the jobs-baseline `_extract_composite_key`, in contrast,
returns nothing whenever the inferred platform or item-type is empty. -/
theorem composite_key_sentinel_fallbacks :
    (∀ pv tv idv : PyVal, (coerce_int idv).isSome → (make_comp_key_rtdb pv tv idv).isSome) ∧
    (∀ pv tv idv : PyVal, ∀ n : Int, coerce_int idv = some n →
      (pv = PyVal.vnone ∨ ∃ s : String, pv = PyVal.vstr s ∧ pyStrip (pyLower (pyStrip s)) = "") →
      (tv = PyVal.vnone ∨ ∃ s : String, tv = PyVal.vstr s ∧ pyStrip (pyLower (pyStrip s)) = "") →
      make_comp_key_rtdb pv tv idv =
        some (("unknown_platform") ++ (":") ++ ("unknown_type") ++ (":") ++ toString n)) ∧
    (∀ p t : String, ∀ idv : PyVal, ∀ n : Int, coerce_int idv = some n →
      pyStrip (pyLower (pyStrip p)) ≠ "" → pyStrip (pyLower (pyStrip t)) ≠ "" →
      make_comp_key_rtdb (PyVal.vstr p) (PyVal.vstr t) idv =
        some (pyStrip (pyLower (pyStrip p)) ++ (":") ++ pyStrip (pyLower (pyStrip t)) ++ (":") ++
          toString n)) ∧
    (∀ pv : PyVal, ∀ t : String, ∀ idv : PyVal, ∀ n : Int, coerce_int idv = some n →
      (pv = PyVal.vnone ∨ ∃ s : String, pv = PyVal.vstr s ∧ pyStrip (pyLower (pyStrip s)) = "") →
      pyStrip (pyLower (pyStrip t)) ≠ "" →
      make_comp_key_rtdb pv (PyVal.vstr t) idv =
        some (("unknown_platform") ++ (":") ++ pyStrip (pyLower (pyStrip t)) ++ (":") ++
          toString n)) ∧
    (∀ p : String, ∀ tv : PyVal, ∀ idv : PyVal, ∀ n : Int, coerce_int idv = some n →
      pyStrip (pyLower (pyStrip p)) ≠ "" →
      (tv = PyVal.vnone ∨ ∃ s : String, tv = PyVal.vstr s ∧ pyStrip (pyLower (pyStrip s)) = "") →
      make_comp_key_rtdb (PyVal.vstr p) tv idv =
        some (pyStrip (pyLower (pyStrip p)) ++ (":") ++ ("unknown_type") ++ (":") ++
          toString n)) ∧
    (∀ p t : String, ∀ n : Int, pyLower (pyStrip p) = "" → pyLower (pyStrip t) = "" →
      make_job_key p t n = ("unknown_platform") ++ (":") ++ ("unknown_type") ++ (":") ++ toString n ∧
      make_comp_key p t n = ("unknown_platform") ++ (":") ++ ("unknown_type") ++ (":") ++ toString n) ∧
    (∀ p t : String, ∀ n : Int, pyLower (pyStrip p) = "" → pyLower (pyStrip t) ≠ "" →
      make_job_key p t n =
        ("unknown_platform") ++ (":") ++ pyLower (pyStrip t) ++ (":") ++ toString n ∧
      make_comp_key p t n =
        ("unknown_platform") ++ (":") ++ pyLower (pyStrip t) ++ (":") ++ toString n) ∧
    (∀ p t : String, ∀ n : Int, pyLower (pyStrip p) ≠ "" → pyLower (pyStrip t) = "" →
      make_job_key p t n =
        pyLower (pyStrip p) ++ (":") ++ ("unknown_type") ++ (":") ++ toString n ∧
      make_comp_key p t n =
        pyLower (pyStrip p) ++ (":") ++ ("unknown_type") ++ (":") ++ toString n) ∧
    (∀ p t : String, ∀ n : Int, pyLower (pyStrip p) ≠ "" → pyLower (pyStrip t) ≠ "" →
      make_job_key p t n =
        pyLower (pyStrip p) ++ (":") ++ pyLower (pyStrip t) ++ (":") ++ toString n ∧
      make_comp_key p t n =
        pyLower (pyStrip p) ++ (":") ++ pyLower (pyStrip t) ++ (":") ++ toString n) ∧
    (∀ obj : Obj, infer_platform obj = "" ∨ infer_opp_type obj = "" →
      extract_composite_key obj = none) := by
  refine ⟨?_, ?_, ?_, ?_, ?_, ?_, ?_, ?_, ?_, ?_⟩
  · intro pv tv idv h
    rw [Option.isSome_iff_exists] at h
    obtain ⟨n, hn⟩ := h
    simp [make_comp_key_rtdb, hn]
  · intro pv tv idv n h hp ht
    have e0 : pyStrip ("") = ("") := by decide
    rcases hp with rfl | ⟨s, rfl, hs⟩ <;> rcases ht with rfl | ⟨s2, rfl, hs2⟩ <;>
      simp [make_comp_key_rtdb, h, pyStr, e0, *]
  · intro p t idv n h hp ht
    simp only [make_comp_key_rtdb, h, pyStr]
    rw [if_neg hp, if_neg ht]
  · intro pv t idv n h hp ht
    have e0 : pyStrip ("") = ("") := by decide
    rcases hp with rfl | ⟨s, rfl, hs⟩
    · simp only [make_comp_key_rtdb, h, pyStr, e0]
      rw [if_pos trivial, if_neg ht]
    · simp only [make_comp_key_rtdb, h, pyStr]
      rw [if_pos hs, if_neg ht]
  · intro p tv idv n h hp ht
    have e0 : pyStrip ("") = ("") := by decide
    rcases ht with rfl | ⟨s, rfl, hs⟩
    · simp only [make_comp_key_rtdb, h, pyStr, e0]
      rw [if_neg hp, if_pos trivial]
    · simp only [make_comp_key_rtdb, h, pyStr]
      rw [if_neg hp, if_pos hs]
  · intro p t n hp ht
    constructor
    · simp only [make_job_key]
      rw [if_pos hp, if_pos ht]
    · simp only [make_comp_key]
      rw [if_pos hp, if_pos ht]
  · intro p t n hp ht
    constructor
    · simp only [make_job_key]
      rw [if_pos hp, if_neg ht]
    · simp only [make_comp_key]
      rw [if_pos hp, if_neg ht]
  · intro p t n hp ht
    constructor
    · simp only [make_job_key]
      rw [if_neg hp, if_pos ht]
    · simp only [make_comp_key]
      rw [if_neg hp, if_pos ht]
  · intro p t n hp ht
    constructor
    · simp only [make_job_key]
      rw [if_neg hp, if_neg ht]
    · simp only [make_comp_key]
      rw [if_neg hp, if_neg ht]
  · intro obj h
    simp only [extract_composite_key]
    rw [if_pos h]

/-- Witness for C4's amended theorem at concrete inputs: a whitespace-only
platform with a missing type, fully mixed-case components, a mixed
adapter-side pair, and a keyless jobs-baseline record. -/
theorem composite_key_sentinel_fallbacks_witness :
    make_comp_key_rtdb (PyVal.vstr ("   ")) PyVal.vnone (PyVal.vstr ("5.0")) =
      some (("unknown_platform") ++ (":") ++ ("unknown_type") ++ (":") ++ toString (5 : Int)) ∧
    make_comp_key_rtdb (PyVal.vstr ("  Unstop ")) (PyVal.vstr (" JOB ")) (PyVal.vint 9) =
      some (pyStrip (pyLower (pyStrip ("  Unstop "))) ++ (":") ++
        pyStrip (pyLower (pyStrip (" JOB "))) ++ (":") ++ toString (9 : Int)) ∧
    (make_job_key ("  ") (" Job ") 3 =
        ("unknown_platform") ++ (":") ++ pyLower (pyStrip (" Job ")) ++ (":") ++ toString (3 : Int) ∧
      make_comp_key ("  ") (" Job ") 3 =
        ("unknown_platform") ++ (":") ++ pyLower (pyStrip (" Job ")) ++ (":") ++ toString (3 : Int)) ∧
    extract_composite_key ([(("job_id"), PyVal.vint 1)]) = none :=
  ⟨composite_key_sentinel_fallbacks.2.1 (PyVal.vstr ("   ")) PyVal.vnone (PyVal.vstr ("5.0")) 5
      (by decide) (Or.inr ⟨("   "), rfl, by decide⟩) (Or.inl rfl),
   composite_key_sentinel_fallbacks.2.2.1 ("  Unstop ") (" JOB ") (PyVal.vint 9) 9
      rfl (by decide) (by decide),
   composite_key_sentinel_fallbacks.2.2.2.2.2.2.1 ("  ") (" Job ") 3 (by decide) (by decide),
   composite_key_sentinel_fallbacks.2.2.2.2.2.2.2.2.2 ([(("job_id"), PyVal.vint 1)])
      (Or.inl (by decide))⟩

/-! ### C5: id coercion -/

theorem pyIntOfString_strip_ne (s : String) (n : Int)
    (h : pyIntOfString s = some n) : pyStrip s ≠ "" := by
  intro he
  have hdata : stripList s.data = [] := by
    have := congrArg String.data he
    simpa [pyStrip] using this
  rw [pyIntOfString, hdata] at h
  simp [usDigitsOk] at h

/-- C5 counterexample: the string "3.0" -- the string form of an
integer-valued float, which the claim says every composite-key builder
accepts -- is rejected by the job-side coercions: `_coerce_job_id` yields
nothing for it, and so does `_extract_composite_key` even with platform
and type present, while the competition-side `_coerce_int` accepts it. -/
theorem job_id_float_string_rejected :
    coerce_int (PyVal.vstr ("3.0")) = some 3 ∧
    coerce_job_id ([(("job_id"), PyVal.vstr ("3.0"))]) = none ∧
    extract_composite_key
      ([(("platform"), PyVal.vstr ("unstop")), (("subtype"), PyVal.vstr ("job")),
        (("job_id"), PyVal.vstr ("3.0"))]) = none := by
  decide

/-- C5 (amended): the competition-side coercion `_coerce_int` accepts ints,
any finite float (truncating toward zero), integer-literal strings, and
float-literal strings, and returns nothing exactly when the value is
`None` or a string both parses reject; the job-side `_coerce_job_id`
accepts integer-literal strings but rejects float-form strings such as
"3.0", treating them as a missing id. -/
theorem id_coercion_spec :
    (∀ n : Int, coerce_int (PyVal.vint n) = some n) ∧
    (∀ q : Rat, coerce_int (PyVal.vfloat q) = some (truncQ q)) ∧
    (∀ s : String, ∀ n : Int, pyIntOfString s = some n →
      coerce_int (PyVal.vstr s) = some n ∧
      coerce_job_id ([(("job_id"), PyVal.vstr s)]) = some n) ∧
    (∀ s : String, ∀ q : Rat, pyIntOfString s = none → pyFloatOfString s = some q →
      coerce_int (PyVal.vstr s) = some (truncQ q)) ∧
    (∀ v : PyVal, coerce_int v = none ↔
      (v = PyVal.vnone ∨ ∃ s : String, v = PyVal.vstr s ∧
        pyIntOfString s = none ∧ pyFloatOfString s = none)) ∧
    (∀ s : String, pyIntOfString s = none →
      coerce_job_id ([(("job_id"), PyVal.vstr s)]) = none) := by
  refine ⟨?_, ?_, ?_, ?_, ?_, ?_⟩
  · intro n; rfl
  · intro q; rfl
  · intro s n h
    refine ⟨by simp [coerce_int, pyInt, h], ?_⟩
    have hne := pyIntOfString_strip_ne s n h
    simp [coerce_job_id, Obj.get, pyStr, hne, pyInt, h]
  · intro s q h hf
    simp [coerce_int, pyInt, h, pyFloat, hf]
  · intro v
    cases v with
    | vnone => simp [coerce_int]
    | vint n => simp [coerce_int, pyInt]
    | vfloat q => simp [coerce_int, pyInt]
    | vstr s =>
      cases hi : pyIntOfString s with
      | some k => simp [coerce_int, pyInt, hi]
      | none =>
        cases hf : pyFloatOfString s with
        | some q => simp [coerce_int, pyInt, hi, pyFloat, hf]
        | none => simp [coerce_int, pyInt, hi, pyFloat, hf]
  · intro s h
    by_cases hb : pyStrip s = ""
    · simp [coerce_job_id, Obj.get, pyStr, hb]
    · simp [coerce_job_id, Obj.get, pyStr, hb, pyInt, h]

/-- Witness for C5's amended theorem at concrete inputs. -/
theorem id_coercion_spec_witness :
    coerce_int (PyVal.vstr (" 42 ")) = some 42 ∧
    coerce_job_id ([(("job_id"), PyVal.vstr (" 42 "))]) = some 42 ∧
    coerce_int (PyVal.vstr ("7.9")) = some (truncQ (mkRat 79 10)) ∧
    (coerce_int (PyVal.vstr ("n/a")) = none ↔
      (PyVal.vstr ("n/a") = PyVal.vnone ∨ ∃ s : String, PyVal.vstr ("n/a") = PyVal.vstr s ∧
        pyIntOfString s = none ∧ pyFloatOfString s = none)) ∧
    coerce_job_id ([(("job_id"), PyVal.vstr ("3.5"))]) = none :=
  ⟨(id_coercion_spec.2.2.1 (" 42 ") 42 (by decide)).1,
   (id_coercion_spec.2.2.1 (" 42 ") 42 (by decide)).2,
   id_coercion_spec.2.2.2.1 ("7.9") (mkRat 79 10) (by decide) (by decide),
   id_coercion_spec.2.2.2.2.1 (PyVal.vstr ("n/a")),
   id_coercion_spec.2.2.2.2.2 ("3.5") (by decide)⟩

/-! ### Page-level fold lemmas for the scan loop -/

theorem stepItem_eq (keyOf : Obj → Option String) (normalize : Obj → Obj)
    (existing : Finset String) (st : ScanState) (b : Bool) (item : RawItem) :
    stepItem keyOf normalize existing (st, b) item =
      ({ st with
          delta := st.delta ++ pageKeptRows keyOf normalize existing [item],
          items_seen := st.items_seen + dictCount [item],
          kept_delta := st.kept_delta + (pageKeptRows keyOf normalize existing [item]).length,
          skipped_existing := st.skipped_existing + pageExistingCount keyOf normalize existing [item],
          skipped_missing_id := st.skipped_missing_id + pageMissingCount keyOf normalize [item] },
       b && itemAllSeen keyOf normalize existing item) := by
  cases item with
  | none =>
    simp [stepItem, pageKeptRows, dictCount, pageExistingCount, pageMissingCount, itemAllSeen]
  | some obj =>
    cases hk : keyOf (normalize obj) with
    | none =>
      simp [stepItem, pageKeptRows, dictCount, pageExistingCount, pageMissingCount,
        itemAllSeen, hk]
    | some key =>
      by_cases hm : key ∈ existing
      · simp [stepItem, pageKeptRows, dictCount, pageExistingCount, pageMissingCount,
          itemAllSeen, hk, hm]
      · simp [stepItem, pageKeptRows, dictCount, pageExistingCount, pageMissingCount,
          itemAllSeen, hk, hm]

theorem pageKeptRows_append (keyOf : Obj → Option String) (normalize : Obj → Obj)
    (existing : Finset String) (l₁ l₂ : List RawItem) :
    pageKeptRows keyOf normalize existing (l₁ ++ l₂) =
      pageKeptRows keyOf normalize existing l₁ ++ pageKeptRows keyOf normalize existing l₂ :=
  List.filterMap_append l₁ l₂ _

theorem dictCount_append (l₁ l₂ : List RawItem) :
    dictCount (l₁ ++ l₂) = dictCount l₁ + dictCount l₂ :=
  List.countP_append _ l₁ l₂

theorem pageExistingCount_append (keyOf : Obj → Option String) (normalize : Obj → Obj)
    (existing : Finset String) (l₁ l₂ : List RawItem) :
    pageExistingCount keyOf normalize existing (l₁ ++ l₂) =
      pageExistingCount keyOf normalize existing l₁ + pageExistingCount keyOf normalize existing l₂ :=
  List.countP_append _ l₁ l₂

theorem pageMissingCount_append (keyOf : Obj → Option String) (normalize : Obj → Obj)
    (l₁ l₂ : List RawItem) :
    pageMissingCount keyOf normalize (l₁ ++ l₂) =
      pageMissingCount keyOf normalize l₁ + pageMissingCount keyOf normalize l₂ :=
  List.countP_append _ l₁ l₂

theorem pageFullySeen_append (keyOf : Obj → Option String) (normalize : Obj → Obj)
    (existing : Finset String) (l₁ l₂ : List RawItem) :
    pageFullySeen keyOf normalize existing (l₁ ++ l₂) =
      (pageFullySeen keyOf normalize existing l₁ && pageFullySeen keyOf normalize existing l₂) :=
  List.all_append

theorem processItems_eq (keyOf : Obj → Option String) (normalize : Obj → Obj)
    (existing : Finset String) (items : List RawItem) (st : ScanState) (b : Bool) :
    List.foldl (stepItem keyOf normalize existing) (st, b) items =
      ({ st with
          delta := st.delta ++ pageKeptRows keyOf normalize existing items,
          items_seen := st.items_seen + dictCount items,
          kept_delta := st.kept_delta + (pageKeptRows keyOf normalize existing items).length,
          skipped_existing := st.skipped_existing + pageExistingCount keyOf normalize existing items,
          skipped_missing_id := st.skipped_missing_id + pageMissingCount keyOf normalize items },
       b && pageFullySeen keyOf normalize existing items) := by
  induction items generalizing st b with
  | nil =>
    simp [pageKeptRows, dictCount, pageExistingCount, pageMissingCount, pageFullySeen]
  | cons it items ih =>
    have hsplit : it :: items = [it] ++ items := rfl
    rw [List.foldl_cons, stepItem_eq, ih, hsplit, pageKeptRows_append, dictCount_append,
      pageExistingCount_append, pageMissingCount_append, pageFullySeen_append]
    simp [List.append_assoc, Nat.add_assoc, Bool.and_assoc, pageFullySeen]

/-! ### C6: items without a coercible id -/

/-- C6: in the scan loop shared by both adapters, a dict item whose
normalized row has no coercible integer id (its key computation yields
nothing) bumps `items_seen` and the skipped-missing-id counter only, adds
nothing to the delta, and forces `page_all_seen` to false. The resulting
state is one and the same for every existing-key set -- the set is never
consulted for such an item -- which the free `existing` variable and the
`existing`-free right-hand side express. -/
theorem missing_id_item_behavior :
    (∀ keyOf : Obj → Option String, ∀ normalize : Obj → Obj, ∀ existing : Finset String,
      ∀ obj : Obj, ∀ st : ScanState, ∀ b : Bool,
      keyOf (normalize obj) = none →
      stepItem keyOf normalize existing (st, b) (some obj) =
        ({ st with
            items_seen := st.items_seen + 1,
            skipped_missing_id := st.skipped_missing_id + 1 }, false)) ∧
    (∀ keyOf : Obj → Option String, ∀ normalize : Obj → Obj, ∀ existing : Finset String,
      ∀ items : List RawItem, ∀ obj : Obj, (some obj) ∈ items →
      keyOf (normalize obj) = none →
      pageFullySeen keyOf normalize existing items = false) := by
  constructor
  · intro keyOf normalize existing obj st b h
    simp [stepItem, h]
  · intro keyOf normalize existing items obj hmem hk
    cases hall : pageFullySeen keyOf normalize existing items with
    | false => rfl
    | true =>
      exfalso
      have := (List.all_eq_true.mp hall) (some obj) hmem
      simp [itemAllSeen, hk] at this

/-- Witness for C6 at concrete inputs: the empty row has no `job_id`. -/
theorem missing_id_item_behavior_witness :
    stepItem jobKeyOf (fun o => o) ∅ (ScanState.start, true) (some []) =
      ({ ScanState.start with
          items_seen := ScanState.start.items_seen + 1,
          skipped_missing_id := ScanState.start.skipped_missing_id + 1 }, false) ∧
    pageFullySeen jobKeyOf (fun o => o) ∅ [some []] = false :=
  ⟨missing_id_item_behavior.1 jobKeyOf (fun o => o) ∅ [] ScanState.start true (by decide),
   missing_id_item_behavior.2 jobKeyOf (fun o => o) ∅ [some []] [] (by decide) (by decide)⟩

/-! ### Run-level lemmas for the pagination loop -/

theorem scanAux_succ (keyOf : Obj → Option String) (normalize : Obj → Obj)
    (fetchPage : Nat → List RawItem) (existing : Finset String)
    (maxPages : Nat) (stopWhenAllSeen : Bool) (fuel page : Nat) (st : ScanState) :
    scanAux keyOf normalize fetchPage existing maxPages stopWhenAllSeen (fuel + 1) page st =
      if maxPages ≠ 0 ∧ maxPages < page then some st
      else if fetchPage page = [] then some { st with pages_fetched := st.pages_fetched + 1 }
      else if stopWhenAllSeen ∧ (processItems keyOf normalize existing (fetchPage page)
          { st with pages_fetched := st.pages_fetched + 1 }).2 = true then
        some { (processItems keyOf normalize existing (fetchPage page)
          { st with pages_fetched := st.pages_fetched + 1 }).1 with early_stop := 1 }
      else scanAux keyOf normalize fetchPage existing maxPages stopWhenAllSeen fuel (page + 1)
        (processItems keyOf normalize existing (fetchPage page)
          { st with pages_fetched := st.pages_fetched + 1 }).1 :=
  rfl

theorem dictCount_split (keyOf : Obj → Option String) (normalize : Obj → Obj)
    (existing : Finset String) (items : List RawItem) :
    dictCount items = (pageKeptRows keyOf normalize existing items).length +
      pageExistingCount keyOf normalize existing items +
      pageMissingCount keyOf normalize items := by
  induction items with
  | nil => simp [dictCount, pageKeptRows, pageExistingCount, pageMissingCount]
  | cons it items ih =>
    have hsplit : it :: items = [it] ++ items := rfl
    rw [hsplit, dictCount_append, pageKeptRows_append, pageExistingCount_append,
      pageMissingCount_append, List.length_append]
    cases it with
    | none =>
      simp only [dictCount, pageKeptRows, pageExistingCount, pageMissingCount] at *
      simp
      omega
    | some obj =>
      cases hk : keyOf (normalize obj) with
      | none =>
        simp [dictCount, pageKeptRows, pageExistingCount, pageMissingCount, hk] at *
        omega
      | some key =>
        by_cases hm : key ∈ existing
        · simp [dictCount, pageKeptRows, pageExistingCount, pageMissingCount, hk, hm] at *
          omega
        · simp [dictCount, pageKeptRows, pageExistingCount, pageMissingCount, hk, hm] at *
          omega

theorem processItems_stats (keyOf : Obj → Option String) (normalize : Obj → Obj)
    (existing : Finset String) (items : List RawItem) (st : ScanState)
    (hinv : StatsInv st) :
    StatsInv (processItems keyOf normalize existing items st).1 := by
  obtain ⟨h1, h2, h3⟩ := hinv
  simp only [processItems]
  rw [processItems_eq]
  refine ⟨?_, ?_, ?_⟩
  · simp only []
    rw [dictCount_split keyOf normalize existing items] at *
    omega
  · simp only [List.length_append]
    omega
  · exact h3

theorem scanAux_inv (keyOf : Obj → Option String) (normalize : Obj → Obj)
    (fetchPage : Nat → List RawItem) (existing : Finset String)
    (maxPages : Nat) (stopWhenAllSeen : Bool) :
    ∀ fuel page : Nat, ∀ st r : ScanState,
      StatsInv st →
      scanAux keyOf normalize fetchPage existing maxPages stopWhenAllSeen fuel page st = some r →
      StatsInv r := by
  intro fuel
  induction fuel with
  | zero =>
    intro page st r _ h
    simp [scanAux] at h
  | succ fuel ih =>
    intro page st r hinv h
    rw [scanAux_succ] at h
    split at h
    · cases h
      exact hinv
    · split at h
      · cases h
        exact hinv
      · split at h
        · cases h
          have hp : StatsInv (processItems keyOf normalize existing (fetchPage page)
              { st with pages_fetched := st.pages_fetched + 1 }).1 :=
            processItems_stats keyOf normalize existing (fetchPage page)
              { st with pages_fetched := st.pages_fetched + 1 } hinv
          exact ⟨hp.1, hp.2.1, Or.inr rfl⟩
        · exact ih (page + 1)
            (processItems keyOf normalize existing (fetchPage page)
              { st with pages_fetched := st.pages_fetched + 1 }).1 r
            (processItems_stats keyOf normalize existing (fetchPage page)
              { st with pages_fetched := st.pages_fetched + 1 } hinv) h

/-! ### C10: stats identities of a completed scan -/

/-- C10: for every completed scan of either adapter the returned stats
satisfy `items_seen = kept_delta + skipped_existing + skipped_missing_id`,
`kept_delta` equals the length of the returned delta-row list, and the
early-stop flag is 0 or 1. -/
theorem scan_stats_totals :
    ∀ normalize : Obj → Obj, ∀ fetchPage : Nat → List RawItem, ∀ existing : Finset String,
    ∀ maxPages : Nat, ∀ stopWhenAllSeen : Bool, ∀ fuel : Nat, ∀ r : ScanState,
    (scrape_jobs normalize fetchPage existing maxPages stopWhenAllSeen fuel = some r ∨
     scrape_competitions normalize fetchPage existing maxPages stopWhenAllSeen fuel = some r) →
    (r.items_seen = r.kept_delta + r.skipped_existing + r.skipped_missing_id ∧
     r.kept_delta = r.delta.length ∧ (r.early_stop = 0 ∨ r.early_stop = 1)) := by
  intro normalize fetchPage existing maxPages stopWhenAllSeen fuel r h
  cases h with
  | inl h =>
    exact scanAux_inv jobKeyOf normalize fetchPage existing maxPages stopWhenAllSeen
      fuel 1 ScanState.start r ⟨rfl, rfl, Or.inl rfl⟩ h
  | inr h =>
    exact scanAux_inv compKeyOf normalize fetchPage existing maxPages stopWhenAllSeen
      fuel 1 ScanState.start r ⟨rfl, rfl, Or.inl rfl⟩ h

/-- Witness for C10: a two-page jobs run (one new item, then an empty
page). -/
theorem scan_stats_totals_witness :
    (⟨[([(("job_id"), PyVal.vint 5)])], 2, 1, 1, 0, 0, 0⟩ : ScanState).items_seen =
        (⟨[([(("job_id"), PyVal.vint 5)])], 2, 1, 1, 0, 0, 0⟩ : ScanState).kept_delta +
        (⟨[([(("job_id"), PyVal.vint 5)])], 2, 1, 1, 0, 0, 0⟩ : ScanState).skipped_existing +
        (⟨[([(("job_id"), PyVal.vint 5)])], 2, 1, 1, 0, 0, 0⟩ : ScanState).skipped_missing_id ∧
      (⟨[([(("job_id"), PyVal.vint 5)])], 2, 1, 1, 0, 0, 0⟩ : ScanState).kept_delta =
        (⟨[([(("job_id"), PyVal.vint 5)])], 2, 1, 1, 0, 0, 0⟩ : ScanState).delta.length ∧
      ((⟨[([(("job_id"), PyVal.vint 5)])], 2, 1, 1, 0, 0, 0⟩ : ScanState).early_stop = 0 ∨
        (⟨[([(("job_id"), PyVal.vint 5)])], 2, 1, 1, 0, 0, 0⟩ : ScanState).early_stop = 1) :=
  scan_stats_totals (fun o => o)
    (fun p => if p = 1 then [some ([(("job_id"), PyVal.vint 5)])] else []) ∅ 0 true 3
    ⟨[([(("job_id"), PyVal.vint 5)])], 2, 1, 1, 0, 0, 0⟩ (Or.inl (by decide))

theorem processItems_pages (keyOf : Obj → Option String) (normalize : Obj → Obj)
    (existing : Finset String) (items : List RawItem) (st : ScanState) :
    (processItems keyOf normalize existing items st).1.pages_fetched = st.pages_fetched := by
  simp only [processItems]
  rw [processItems_eq]

theorem scanAux_terminates (keyOf : Obj → Option String) (normalize : Obj → Obj)
    (fetchPage : Nat → List RawItem) (existing : Finset String)
    (maxPages : Nat) (stopWhenAllSeen : Bool) (hmp : maxPages ≠ 0) :
    ∀ fuel page : Nat, ∀ st : ScanState, page ≤ maxPages + 1 → maxPages + 2 ≤ fuel + page →
      (scanAux keyOf normalize fetchPage existing maxPages stopWhenAllSeen fuel page st).isSome := by
  intro fuel
  induction fuel with
  | zero =>
    intro page st h1 h2
    omega
  | succ fuel ih =>
    intro page st h1 h2
    rw [scanAux_succ]
    split
    · simp
    case isFalse hg =>
      split
      · simp
      · split
        · simp
        · have hpage : page ≤ maxPages := by
            rcases Nat.lt_or_ge maxPages page with hlt | hge
            · exact absurd ⟨hmp, hlt⟩ hg
            · exact hge
          exact ih (page + 1) _ (by omega) (by omega)

theorem scanAux_pages_le (keyOf : Obj → Option String) (normalize : Obj → Obj)
    (fetchPage : Nat → List RawItem) (existing : Finset String)
    (maxPages : Nat) (stopWhenAllSeen : Bool) (hmp : maxPages ≠ 0) :
    ∀ fuel page : Nat, ∀ st r : ScanState,
      scanAux keyOf normalize fetchPage existing maxPages stopWhenAllSeen fuel page st = some r →
      r.pages_fetched ≤ st.pages_fetched + (maxPages + 1 - page) := by
  intro fuel
  induction fuel with
  | zero =>
    intro page st r h
    simp [scanAux] at h
  | succ fuel ih =>
    intro page st r h
    rw [scanAux_succ] at h
    split at h
    · cases h
      omega
    case isFalse hg =>
      have hpage : page ≤ maxPages := by
        rcases Nat.lt_or_ge maxPages page with hlt | hge
        · exact absurd ⟨hmp, hlt⟩ hg
        · exact hge
      split at h
      · cases h
        simp only []
        omega
      · split at h
        · cases h
          have hpg := processItems_pages keyOf normalize existing (fetchPage page)
            { st with pages_fetched := st.pages_fetched + 1 }
          simp only [hpg]
          omega
        · have := ih (page + 1)
            (processItems keyOf normalize existing (fetchPage page)
              { st with pages_fetched := st.pages_fetched + 1 }).1 r h
          have hpg := processItems_pages keyOf normalize existing (fetchPage page)
            { st with pages_fetched := st.pages_fetched + 1 }
          rw [hpg] at this
          simp only [] at this
          omega

/-! ### C9: pagination bounds and empty-page termination -/

/-- C9: with nonzero `max_pages` the pagination loop terminates (fuel
`max_pages + 1` always suffices) and the `pages_fetched` counter of the
returned stats never exceeds `max_pages`; independently of `max_pages`, a
fetched empty page ends the scan immediately after being counted. -/
theorem scan_pagination_bounds :
    (∀ normalize : Obj → Obj, ∀ fetchPage : Nat → List RawItem, ∀ existing : Finset String,
      ∀ maxPages : Nat, ∀ stopWhenAllSeen : Bool, maxPages ≠ 0 →
      (scrape_jobs normalize fetchPage existing maxPages stopWhenAllSeen (maxPages + 1)).isSome ∧
      (scrape_competitions normalize fetchPage existing maxPages stopWhenAllSeen (maxPages + 1)).isSome) ∧
    (∀ normalize : Obj → Obj, ∀ fetchPage : Nat → List RawItem, ∀ existing : Finset String,
      ∀ maxPages : Nat, ∀ stopWhenAllSeen : Bool, ∀ fuel : Nat, ∀ r : ScanState, maxPages ≠ 0 →
      (scrape_jobs normalize fetchPage existing maxPages stopWhenAllSeen fuel = some r ∨
       scrape_competitions normalize fetchPage existing maxPages stopWhenAllSeen fuel = some r) →
      r.pages_fetched ≤ maxPages) ∧
    (∀ keyOf : Obj → Option String, ∀ normalize : Obj → Obj, ∀ fetchPage : Nat → List RawItem,
      ∀ existing : Finset String, ∀ maxPages : Nat, ∀ stopWhenAllSeen : Bool,
      ∀ fuel page : Nat, ∀ st : ScanState,
      ¬(maxPages ≠ 0 ∧ maxPages < page) → fetchPage page = [] →
      scanAux keyOf normalize fetchPage existing maxPages stopWhenAllSeen (fuel + 1) page st =
        some { st with pages_fetched := st.pages_fetched + 1 }) := by
  refine ⟨?_, ?_, ?_⟩
  · intro normalize fetchPage existing maxPages stopWhenAllSeen hmp
    constructor
    · exact scanAux_terminates jobKeyOf normalize fetchPage existing maxPages stopWhenAllSeen hmp
        (maxPages + 1) 1 ScanState.start (by omega) (by omega)
    · exact scanAux_terminates compKeyOf normalize fetchPage existing maxPages stopWhenAllSeen hmp
        (maxPages + 1) 1 ScanState.start (by omega) (by omega)
  · intro normalize fetchPage existing maxPages stopWhenAllSeen fuel r hmp h
    have hb : r.pages_fetched ≤ ScanState.start.pages_fetched + (maxPages + 1 - 1) := by
      cases h with
      | inl h =>
        exact scanAux_pages_le jobKeyOf normalize fetchPage existing maxPages stopWhenAllSeen hmp
          fuel 1 ScanState.start r h
      | inr h =>
        exact scanAux_pages_le compKeyOf normalize fetchPage existing maxPages stopWhenAllSeen hmp
          fuel 1 ScanState.start r h
    have h0 : ScanState.start.pages_fetched = 0 := rfl
    omega
  · intro keyOf normalize fetchPage existing maxPages stopWhenAllSeen fuel page st hg he
    rw [scanAux_succ, if_neg hg, if_pos he]

/-- Witness for C9 at concrete inputs: a never-empty source capped at two
pages, and an empty first page. -/
theorem scan_pagination_bounds_witness :
    (scrape_jobs (fun o => o) (fun _ => [some ([(("job_id"), PyVal.vint 5)])]) ∅ 2 true 3).isSome ∧
    (⟨[([(("job_id"), PyVal.vint 5)]), ([(("job_id"), PyVal.vint 5)])], 2, 2, 2, 0, 0, 0⟩ :
      ScanState).pages_fetched ≤ 2 ∧
    scanAux jobKeyOf (fun o => o) (fun _ => []) ∅ 1 true 1 1 ScanState.start =
      some { ScanState.start with pages_fetched := ScanState.start.pages_fetched + 1 } :=
  ⟨(scan_pagination_bounds.1 (fun o => o) (fun _ => [some ([(("job_id"), PyVal.vint 5)])]) ∅ 2 true
      (by decide)).1,
   scan_pagination_bounds.2.1 (fun o => o) (fun _ => [some ([(("job_id"), PyVal.vint 5)])]) ∅ 2 true 3
     ⟨[([(("job_id"), PyVal.vint 5)]), ([(("job_id"), PyVal.vint 5)])], 2, 2, 2, 0, 0, 0⟩
     (by decide) (Or.inl (by decide)),
   scan_pagination_bounds.2.2 jobKeyOf (fun o => o) (fun _ => []) ∅ 1 true 0 1 ScanState.start
     (by decide) rfl⟩

theorem processItems_early (keyOf : Obj → Option String) (normalize : Obj → Obj)
    (existing : Finset String) (items : List RawItem) (st : ScanState) :
    (processItems keyOf normalize existing items st).1.early_stop = st.early_stop := by
  simp only [processItems]
  rw [processItems_eq]

theorem processItems_flag (keyOf : Obj → Option String) (normalize : Obj → Obj)
    (existing : Finset String) (items : List RawItem) (st : ScanState) :
    (processItems keyOf normalize existing items st).2 =
      pageFullySeen keyOf normalize existing items := by
  simp only [processItems]
  rw [processItems_eq]
  simp

theorem fullySeen_counts (keyOf : Obj → Option String) (normalize : Obj → Obj)
    (existing : Finset String) (items : List RawItem)
    (h : pageFullySeen keyOf normalize existing items = true) :
    pageKeptRows keyOf normalize existing items = [] ∧
    pageMissingCount keyOf normalize items = 0 ∧
    pageExistingCount keyOf normalize existing items = dictCount items := by
  induction items with
  | nil => exact ⟨rfl, rfl, rfl⟩
  | cons it items ih =>
    simp only [pageFullySeen, List.all_cons, Bool.and_eq_true] at h
    obtain ⟨h1, h2⟩ := h
    have hih := ih h2
    have hsplit : it :: items = [it] ++ items := rfl
    rw [hsplit, pageKeptRows_append, pageMissingCount_append, pageExistingCount_append,
      dictCount_append]
    cases it with
    | none =>
      have k1 : pageKeptRows keyOf normalize existing [(none : RawItem)] = [] := rfl
      have k2 : pageMissingCount keyOf normalize [(none : RawItem)] = 0 := rfl
      have k3 : pageExistingCount keyOf normalize existing [(none : RawItem)] = 0 := rfl
      have k4 : dictCount [(none : RawItem)] = 0 := rfl
      rw [k1, k2, k3, k4, hih.1, hih.2.1, hih.2.2]
      exact ⟨rfl, rfl, rfl⟩
    | some obj =>
      cases hk : keyOf (normalize obj) with
      | none => simp [itemAllSeen, hk] at h1
      | some key =>
        have hm : key ∈ existing := by
          simp [itemAllSeen, hk] at h1
          exact h1
        have k1 : pageKeptRows keyOf normalize existing [some obj] = [] := by
          simp [pageKeptRows, hk, hm]
        have k2 : pageMissingCount keyOf normalize [some obj] = 0 := by
          simp [pageMissingCount, hk]
        have k3 : pageExistingCount keyOf normalize existing [some obj] = 1 := by
          simp [pageExistingCount, hk, hm]
        have k4 : dictCount [(some obj : RawItem)] = 1 := rfl
        rw [k1, k2, k3, k4, hih.1, hih.2.1, hih.2.2]
        exact ⟨rfl, rfl, rfl⟩

theorem scanAux_no_early (keyOf : Obj → Option String) (normalize : Obj → Obj)
    (fetchPage : Nat → List RawItem) (existing : Finset String)
    (maxPages : Nat) (stopWhenAllSeen : Bool)
    (hno : ∀ p, fetchPage p ≠ [] → pageFullySeen keyOf normalize existing (fetchPage p) = false) :
    ∀ fuel page : Nat, ∀ st r : ScanState,
      scanAux keyOf normalize fetchPage existing maxPages stopWhenAllSeen fuel page st = some r →
      r.early_stop = st.early_stop := by
  intro fuel
  induction fuel with
  | zero =>
    intro page st r h
    simp [scanAux] at h
  | succ fuel ih =>
    intro page st r h
    rw [scanAux_succ] at h
    split at h
    · cases h
      rfl
    · split at h
      · cases h
        rfl
      case isFalse hne =>
        split at h
        case isTrue hcond =>
          exfalso
          have hflag := processItems_flag keyOf normalize existing (fetchPage page)
            { st with pages_fetched := st.pages_fetched + 1 }
          rw [hno page hne] at hflag
          rw [hflag] at hcond
          exact Bool.false_ne_true hcond.2
        · have := ih (page + 1) _ r h
          rw [this, processItems_early]

/-! ### C3: the early-stop rule -/

/-- C3: a non-empty page of dict items is fully seen iff every item's key
resolves and is already in the existing-key set (no item kept, no item
missing an id); when `stop_when_page_all_seen` is on and the fetched page
is fully seen, the scan returns right after that page -- counting it,
adding none of its items to the delta, counting them all as
skipped-existing, and setting the early-stop flag to 1; and when every
fetchable page has at least one new or unkeyable item, a completed scan
ends with the early-stop flag still 0. -/
theorem early_stop_spec :
    (∀ keyOf : Obj → Option String, ∀ normalize : Obj → Obj, ∀ existing : Finset String,
      ∀ items : List RawItem, items ≠ [] → (∀ it ∈ items, it.isSome) →
      (pageFullySeen keyOf normalize existing items = true ↔
        ∀ obj : Obj, (some obj) ∈ items →
          ∃ key, keyOf (normalize obj) = some key ∧ key ∈ existing)) ∧
    (∀ keyOf : Obj → Option String, ∀ normalize : Obj → Obj, ∀ fetchPage : Nat → List RawItem,
      ∀ existing : Finset String, ∀ maxPages fuel page : Nat, ∀ st : ScanState,
      ¬(maxPages ≠ 0 ∧ maxPages < page) → fetchPage page ≠ [] →
      pageFullySeen keyOf normalize existing (fetchPage page) = true →
      scanAux keyOf normalize fetchPage existing maxPages true (fuel + 1) page st =
        some { st with
            pages_fetched := st.pages_fetched + 1,
            items_seen := st.items_seen + dictCount (fetchPage page),
            skipped_existing := st.skipped_existing + dictCount (fetchPage page),
            early_stop := 1 }) ∧
    (∀ keyOf : Obj → Option String, ∀ normalize : Obj → Obj, ∀ fetchPage : Nat → List RawItem,
      ∀ existing : Finset String, ∀ maxPages : Nat, ∀ stopWhenAllSeen : Bool,
      ∀ fuel : Nat, ∀ r : ScanState,
      (∀ p, fetchPage p ≠ [] → pageFullySeen keyOf normalize existing (fetchPage p) = false) →
      scanAux keyOf normalize fetchPage existing maxPages stopWhenAllSeen fuel 1 ScanState.start = some r →
      r.early_stop = 0) := by
  refine ⟨?_, ?_, ?_⟩
  · intro keyOf normalize existing items hne hdict
    constructor
    · intro h obj hmem
      have := List.all_eq_true.mp h (some obj) hmem
      cases hk : keyOf (normalize obj) with
      | none => simp [itemAllSeen, hk] at this
      | some key =>
        refine ⟨key, rfl, ?_⟩
        simp [itemAllSeen, hk] at this
        exact this
    · intro h
      apply List.all_eq_true.mpr
      intro it hmem
      cases it with
      | none => rfl
      | some obj =>
        obtain ⟨key, hk, hm⟩ := h obj hmem
        simp [itemAllSeen, hk, hm]
  · intro keyOf normalize fetchPage existing maxPages fuel page st hg hne hfull
    have hc := fullySeen_counts keyOf normalize existing (fetchPage page) hfull
    have hflag := processItems_flag keyOf normalize existing (fetchPage page)
      { st with pages_fetched := st.pages_fetched + 1 }
    rw [hfull] at hflag
    rw [scanAux_succ, if_neg hg, if_neg hne, if_pos ⟨rfl, hflag⟩]
    have hout : (processItems keyOf normalize existing (fetchPage page)
        { st with pages_fetched := st.pages_fetched + 1 }).1 =
        { st with
            pages_fetched := st.pages_fetched + 1,
            items_seen := st.items_seen + dictCount (fetchPage page),
            skipped_existing := st.skipped_existing + dictCount (fetchPage page) } := by
      simp only [processItems]
      rw [processItems_eq]
      simp [hc.1, hc.2.1, hc.2.2]
    rw [hout]
  · intro keyOf normalize fetchPage existing maxPages stopWhenAllSeen fuel r hno h
    exact scanAux_no_early keyOf normalize fetchPage existing maxPages stopWhenAllSeen hno
      fuel 1 ScanState.start r h

/-- Witness for C3 at concrete inputs: a one-item page whose key is known,
and a run over never-fully-seen pages. -/
theorem early_stop_spec_witness :
    (pageFullySeen jobKeyOf (fun o => o) ({("unstop:unknown_type:5")} : Finset String)
        [some ([(("job_id"), PyVal.vint 5)])] = true ↔
      ∀ obj : Obj, (some obj) ∈ [some ([(("job_id"), PyVal.vint 5)])] →
        ∃ key, jobKeyOf ((fun o => o) obj) = some key ∧
          key ∈ ({("unstop:unknown_type:5")} : Finset String)) ∧
    scanAux jobKeyOf (fun o => o) (fun _ => [some ([(("job_id"), PyVal.vint 5)])])
        ({("unstop:unknown_type:5")} : Finset String) 0 true 1 1 ScanState.start =
      some { ScanState.start with
          pages_fetched := ScanState.start.pages_fetched + 1,
          items_seen := ScanState.start.items_seen +
            dictCount ((fun (_ : Nat) => [some ([(("job_id"), PyVal.vint 5)])]) 1),
          skipped_existing := ScanState.start.skipped_existing +
            dictCount ((fun (_ : Nat) => [some ([(("job_id"), PyVal.vint 5)])]) 1),
          early_stop := 1 } ∧
    (⟨[([(("job_id"), PyVal.vint 5)])], 1, 1, 1, 0, 0, 0⟩ : ScanState).early_stop = 0 :=
  ⟨early_stop_spec.1 jobKeyOf (fun o => o) ({("unstop:unknown_type:5")} : Finset String)
      [some ([(("job_id"), PyVal.vint 5)])] (by decide) (by decide),
   early_stop_spec.2.1 jobKeyOf (fun o => o) (fun _ => [some ([(("job_id"), PyVal.vint 5)])])
      ({("unstop:unknown_type:5")} : Finset String) 0 0 1 ScanState.start
      (by decide) (by decide) (by decide),
   early_stop_spec.2.2 jobKeyOf (fun o => o) (fun _ => [some ([(("job_id"), PyVal.vint 5)])])
      ∅ 1 true 2 ⟨[([(("job_id"), PyVal.vint 5)])], 1, 1, 1, 0, 0, 0⟩
      (fun _ _ => by
        show pageFullySeen jobKeyOf (fun o => o) ∅ [some ([(("job_id"), PyVal.vint 5)])] = false
        decide) (by decide)⟩

/-! ### Baseline lemmas -/

theorem mem_expiredKeysOf (deadlineField : String) (today : PyDate) (store : Store)
    (pk : String) :
    pk ∈ expiredKeysOf deadlineField today store ↔
      ∃ obj : Obj, (pk, some obj) ∈ store ∧
        ∃ d : PyDate, parse_deadline_yyyy_mm_dd (obj.get deadlineField) = some d ∧
          dateBefore d today = true := by
  unfold expiredKeysOf
  rw [List.mem_map]
  constructor
  · rintro ⟨e, he, rfl⟩
    rw [List.mem_filter] at he
    obtain ⟨hmem, hexp⟩ := he
    cases hv : e.2 with
    | none => rw [hv] at hexp; simp [entryExpired] at hexp
    | some obj =>
      rw [hv] at hexp
      cases hd : parse_deadline_yyyy_mm_dd (obj.get deadlineField) with
      | none => simp [entryExpired, hd] at hexp
      | some d =>
        refine ⟨obj, ?_, d, hd, ?_⟩
        · have : e = (e.1, some obj) := by
            cases e
            simp at hv
            rw [hv]
          rw [← this]
          exact hmem
        · simpa [entryExpired, hd] using hexp
  · rintro ⟨obj, hmem, d, hd, hb⟩
    exact ⟨(pk, some obj), List.mem_filter.mpr ⟨hmem, by simp [entryExpired, hd, hb]⟩, rfl⟩

theorem contains_expiredKeysOf (deadlineField : String) (today : PyDate) (store : Store)
    (hnd : (store.map Prod.fst).Nodup) (e : String × Option Obj) (he : e ∈ store) :
    (expiredKeysOf deadlineField today store).contains e.1 =
      entryExpired deadlineField today e.2 := by
  cases hexp : entryExpired deadlineField today e.2 with
  | true =>
    have hm : e.1 ∈ expiredKeysOf deadlineField today store :=
      List.mem_map.mpr ⟨e, List.mem_filter.mpr ⟨he, hexp⟩, rfl⟩
    exact List.elem_iff.mpr hm
  | false =>
    cases hc : (expiredKeysOf deadlineField today store).contains e.1 with
    | false => rfl
    | true =>
      exfalso
      have hm := List.elem_iff.mp hc
      unfold expiredKeysOf at hm
      rw [List.mem_map] at hm
      obtain ⟨e', he', hfst⟩ := hm
      rw [List.mem_filter] at he'
      have : e' = e := List.inj_on_of_nodup_map hnd he'.1 he hfst
      rw [this] at he'
      rw [he'.2] at hexp
      simp at hexp

theorem cleaned_eq (extractKey : Obj → Option String) (deadlineField : String)
    (failDel : String → Bool) (today : PyDate) (store : Store)
    (hnd : (store.map Prod.fst).Nodup) (hfail : ∀ pk, failDel pk = false) :
    (snapshot_prune_delete_and_save extractKey deadlineField failDel today store).cleaned =
      store.filter (fun e => !entryExpired deadlineField today e.2) := by
  simp only [snapshot_prune_delete_and_save]
  apply List.filter_congr
  intro e he
  rw [hfail e.1]
  simp only [Bool.not_false, Bool.and_true]
  rw [contains_expiredKeysOf deadlineField today store hnd e he]

theorem existing_key_set_eq (extractKey : Obj → Option String) (deadlineField : String)
    (failDel : String → Bool) (today : PyDate) (store : Store) :
    (snapshot_prune_delete_and_save extractKey deadlineField failDel today store).existing_key_set =
      ((((snapshot_prune_delete_and_save extractKey deadlineField failDel today store).cleaned).filterMap
        (fun e => e.2.bind extractKey)).filter (fun k => k != "")).toFinset :=
  rfl

theorem mem_existing_key_set (extractKey : Obj → Option String) (deadlineField : String)
    (failDel : String → Bool) (today : PyDate) (store : Store)
    (hnd : (store.map Prod.fst).Nodup) (hfail : ∀ pk, failDel pk = false) (key : String) :
    key ∈ (snapshot_prune_delete_and_save extractKey deadlineField failDel today store).existing_key_set ↔
      ∃ pk : String, ∃ obj : Obj, (pk, some obj) ∈ store ∧
        entryExpired deadlineField today (some obj) = false ∧
        extractKey obj = some key ∧ key ≠ "" := by
  rw [existing_key_set_eq, cleaned_eq extractKey deadlineField failDel today store hnd hfail]
  rw [List.mem_toFinset, List.mem_filter, List.mem_filterMap]
  constructor
  · rintro ⟨⟨e, he, hbind⟩, hne⟩
    rw [List.mem_filter] at he
    cases hv : e.2 with
    | none => rw [hv] at hbind; simp at hbind
    | some obj =>
      rw [hv] at hbind
      simp only [Option.some_bind] at hbind
      refine ⟨e.1, obj, ?_, ?_, ?_, ?_⟩
      · have : e = (e.1, some obj) := by
          cases e
          simp at hv
          rw [hv]
        rw [← this]
        exact he.1
      · have h2 := he.2
        rw [hv] at h2
        simpa using h2
      · exact hbind
      · simpa using hne
  · rintro ⟨pk, obj, hmem, hexp, hk, hne⟩
    refine ⟨⟨(pk, some obj), ?_, ?_⟩, by simpa using hne⟩
    · rw [List.mem_filter]
      exact ⟨hmem, by simp [hexp]⟩
    · simpa using hk

theorem expired_not_in_cleaned (extractKey : Obj → Option String) (deadlineField : String)
    (failDel : String → Bool) (today : PyDate) (store : Store)
    (hnd : (store.map Prod.fst).Nodup) (hfail : ∀ pk, failDel pk = false) (pk : String)
    (hpk : pk ∈ expiredKeysOf deadlineField today store) :
    ¬ ∃ v : Option Obj,
      (pk, v) ∈ (snapshot_prune_delete_and_save extractKey deadlineField failDel today store).cleaned := by
  rintro ⟨v, hv⟩
  rw [cleaned_eq extractKey deadlineField failDel today store hnd hfail, List.mem_filter] at hv
  obtain ⟨obj, hobj, d, hd, hb⟩ := (mem_expiredKeysOf deadlineField today store pk).mp hpk
  have heq : (pk, some obj) = ((pk, v) : String × Option Obj) :=
    List.inj_on_of_nodup_map hnd hobj hv.1 rfl
  have hvv : v = some obj := by
    injection heq with h1 h2
    exact h2.symm
  have h2 := hv.2
  rw [hvv] at h2
  simp [entryExpired, hd, hb] at h2

theorem parse_deadline_first10 (s₁ s₂ : String)
    (h₁ : 10 ≤ (stripList s₁.data).length) (h₂ : 10 ≤ (stripList s₂.data).length)
    (h : (stripList s₁.data).take 10 = (stripList s₂.data).take 10) :
    parse_deadline_yyyy_mm_dd (PyVal.vstr s₁) = parse_deadline_yyyy_mm_dd (PyVal.vstr s₂) := by
  have hne₁ : stripList s₁.data ≠ [] := by
    intro hh
    rw [hh] at h₁
    simp at h₁
  have hne₂ : stripList s₂.data ≠ [] := by
    intro hh
    rw [hh] at h₂
    simp at h₂
  simp only [parse_deadline_yyyy_mm_dd, pyStr]
  rw [if_neg hne₁, if_neg hne₂, if_pos h₁, if_pos h₂, h]

/-! ### C2: baseline expiry classification, pruning, and key-set derivation -/

/-- C2: a store record is classified expired iff it is a dict whose deadline
field parses (via the first-10-characters date parse) to a date strictly
before today; with every per-key delete succeeding and distinct push keys,
the cleaned collection is exactly the store without its expired records,
no expired record survives into the cleaned collection, and the returned
existing-key set contains a key iff some retained (non-expired) record
yields it; parsing depends only on the first 10 characters of the stripped
deadline text. -/
theorem sync_baseline_expiry_spec :
    (∀ deadlineField : String, ∀ today : PyDate, ∀ store : Store, ∀ pk : String,
      pk ∈ expiredKeysOf deadlineField today store ↔
        ∃ obj : Obj, (pk, some obj) ∈ store ∧
          ∃ d : PyDate, parse_deadline_yyyy_mm_dd (obj.get deadlineField) = some d ∧
            dateBefore d today = true) ∧
    (∀ extractKey : Obj → Option String, ∀ deadlineField : String, ∀ failDel : String → Bool,
      ∀ today : PyDate, ∀ store : Store,
      (store.map Prod.fst).Nodup → (∀ pk, failDel pk = false) →
      (snapshot_prune_delete_and_save extractKey deadlineField failDel today store).cleaned =
        store.filter (fun e => !entryExpired deadlineField today e.2)) ∧
    (∀ extractKey : Obj → Option String, ∀ deadlineField : String, ∀ failDel : String → Bool,
      ∀ today : PyDate, ∀ store : Store,
      (store.map Prod.fst).Nodup → (∀ pk, failDel pk = false) →
      ∀ pk : String, pk ∈ expiredKeysOf deadlineField today store →
      ¬ ∃ v : Option Obj,
        (pk, v) ∈ (snapshot_prune_delete_and_save extractKey deadlineField failDel today store).cleaned) ∧
    (∀ extractKey : Obj → Option String, ∀ deadlineField : String, ∀ failDel : String → Bool,
      ∀ today : PyDate, ∀ store : Store,
      (store.map Prod.fst).Nodup → (∀ pk, failDel pk = false) →
      ∀ key : String,
      key ∈ (snapshot_prune_delete_and_save extractKey deadlineField failDel today store).existing_key_set ↔
        ∃ pk : String, ∃ obj : Obj, (pk, some obj) ∈ store ∧
          entryExpired deadlineField today (some obj) = false ∧
          extractKey obj = some key ∧ key ≠ "") ∧
    (∀ s₁ s₂ : String,
      10 ≤ (stripList s₁.data).length → 10 ≤ (stripList s₂.data).length →
      (stripList s₁.data).take 10 = (stripList s₂.data).take 10 →
      parse_deadline_yyyy_mm_dd (PyVal.vstr s₁) = parse_deadline_yyyy_mm_dd (PyVal.vstr s₂)) := by
  refine ⟨?_, ?_, ?_, ?_, ?_⟩
  · exact mem_expiredKeysOf
  · intro extractKey deadlineField failDel today store hnd hfail
    exact cleaned_eq extractKey deadlineField failDel today store hnd hfail
  · intro extractKey deadlineField failDel today store hnd hfail pk hpk
    exact expired_not_in_cleaned extractKey deadlineField failDel today store hnd hfail pk hpk
  · intro extractKey deadlineField failDel today store hnd hfail key
    exact mem_existing_key_set extractKey deadlineField failDel today store hnd hfail key
  · exact parse_deadline_first10

/-- Witness for C2: the spec's end-to-end example (two jobs records, one
expired yesterday, one due tomorrow, today being 2024-05-06). -/
theorem sync_baseline_expiry_spec_witness :
    (("k1") ∈ expiredKeysOf ("application_deadline") ⟨2024, 5, 6⟩
        [(("k1"), some ([(("job_id"), PyVal.vint 100), (("platform"), PyVal.vstr ("unstop")),
          (("oppurtunity_type"), PyVal.vstr ("internship")),
          (("application_deadline"), PyVal.vstr ("2024-05-05"))])),
         (("k2"), some ([(("job_id"), PyVal.vint 101), (("platform"), PyVal.vstr ("unstop")),
          (("oppurtunity_type"), PyVal.vstr ("internship")),
          (("application_deadline"), PyVal.vstr ("2024-05-07"))]))] ↔
      ∃ obj : Obj, (("k1"), some obj) ∈
          [(("k1"), some ([(("job_id"), PyVal.vint 100), (("platform"), PyVal.vstr ("unstop")),
            (("oppurtunity_type"), PyVal.vstr ("internship")),
            (("application_deadline"), PyVal.vstr ("2024-05-05"))])),
           (("k2"), some ([(("job_id"), PyVal.vint 101), (("platform"), PyVal.vstr ("unstop")),
            (("oppurtunity_type"), PyVal.vstr ("internship")),
            (("application_deadline"), PyVal.vstr ("2024-05-07"))]))] ∧
        ∃ d : PyDate, parse_deadline_yyyy_mm_dd (obj.get ("application_deadline")) = some d ∧
          dateBefore d ⟨2024, 5, 6⟩ = true) ∧
    ¬ (∃ v : Option Obj, (("k1"), v) ∈
      (snapshot_prune_delete_and_save extract_composite_key ("application_deadline")
        (fun _ => false) ⟨2024, 5, 6⟩
        [(("k1"), some ([(("job_id"), PyVal.vint 100), (("platform"), PyVal.vstr ("unstop")),
          (("oppurtunity_type"), PyVal.vstr ("internship")),
          (("application_deadline"), PyVal.vstr ("2024-05-05"))])),
         (("k2"), some ([(("job_id"), PyVal.vint 101), (("platform"), PyVal.vstr ("unstop")),
          (("oppurtunity_type"), PyVal.vstr ("internship")),
          (("application_deadline"), PyVal.vstr ("2024-05-07"))]))]).cleaned) ∧
    parse_deadline_yyyy_mm_dd (PyVal.vstr ("2024-05-05T23:59:59+05:30")) =
      parse_deadline_yyyy_mm_dd (PyVal.vstr ("2024-05-05")) :=
  ⟨sync_baseline_expiry_spec.1 ("application_deadline") ⟨2024, 5, 6⟩
      [(("k1"), some ([(("job_id"), PyVal.vint 100), (("platform"), PyVal.vstr ("unstop")),
        (("oppurtunity_type"), PyVal.vstr ("internship")),
        (("application_deadline"), PyVal.vstr ("2024-05-05"))])),
       (("k2"), some ([(("job_id"), PyVal.vint 101), (("platform"), PyVal.vstr ("unstop")),
        (("oppurtunity_type"), PyVal.vstr ("internship")),
        (("application_deadline"), PyVal.vstr ("2024-05-07"))]))] ("k1"),
   sync_baseline_expiry_spec.2.2.1 extract_composite_key ("application_deadline")
      (fun _ => false) ⟨2024, 5, 6⟩
      [(("k1"), some ([(("job_id"), PyVal.vint 100), (("platform"), PyVal.vstr ("unstop")),
        (("oppurtunity_type"), PyVal.vstr ("internship")),
        (("application_deadline"), PyVal.vstr ("2024-05-05"))])),
       (("k2"), some ([(("job_id"), PyVal.vint 101), (("platform"), PyVal.vstr ("unstop")),
        (("oppurtunity_type"), PyVal.vstr ("internship")),
        (("application_deadline"), PyVal.vstr ("2024-05-07"))]))]
      (by decide) (fun _ => rfl) ("k1") (by decide),
   sync_baseline_expiry_spec.2.2.2.2 ("2024-05-05T23:59:59+05:30") ("2024-05-05")
      (by decide) (by decide) (by decide)⟩

theorem cleaned_not_expired (extractKey : Obj → Option String) (deadlineField : String)
    (today : PyDate) (store : Store) :
    ∀ e ∈ (snapshot_prune_delete_and_save extractKey deadlineField (fun _ => false) today store).cleaned,
      entryExpired deadlineField today e.2 = false := by
  intro e he
  simp only [snapshot_prune_delete_and_save] at he
  rw [List.mem_filter] at he
  obtain ⟨hmem, hpred⟩ := he
  cases hexp : entryExpired deadlineField today e.2 with
  | false => rfl
  | true =>
    exfalso
    have hm : e.1 ∈ expiredKeysOf deadlineField today store :=
      List.mem_map.mpr ⟨e, List.mem_filter.mpr ⟨hmem, hexp⟩, rfl⟩
    have hc : (expiredKeysOf deadlineField today store).contains e.1 = true :=
      List.elem_iff.mpr hm
    rw [hc] at hpred
    simp at hpred

theorem expiredKeys_cleaned_nil (extractKey : Obj → Option String) (deadlineField : String)
    (today : PyDate) (store : Store) :
    expiredKeysOf deadlineField today
      (snapshot_prune_delete_and_save extractKey deadlineField (fun _ => false) today store).cleaned = [] := by
  unfold expiredKeysOf
  rw [List.filter_eq_nil_iff.mpr, List.map_nil]
  intro e he
  rw [cleaned_not_expired extractKey deadlineField today store e he]
  simp

theorem snapshot_cleaned_of_no_expired (extractKey : Obj → Option String) (deadlineField : String)
    (failDel : String → Bool) (today : PyDate) (store : Store)
    (h : expiredKeysOf deadlineField today store = []) :
    (snapshot_prune_delete_and_save extractKey deadlineField failDel today store).cleaned = store := by
  simp only [snapshot_prune_delete_and_save, h]
  apply List.filter_eq_self.mpr
  intro e he
  simp

/-! ### C7: idempotence of pruning -/

/-- C7: running the baseline prune twice with the same date and no store
mutation in between (all deletes of the first run succeeding) produces
existing-key sets of equal size -- the second run finds no further expired
records. -/
theorem sync_baseline_prune_idempotent :
    ∀ extractKey : Obj → Option String, ∀ deadlineField : String, ∀ today : PyDate,
    ∀ store : Store, ∀ failDel₂ : String → Bool,
    ((snapshot_prune_delete_and_save extractKey deadlineField failDel₂ today
        (snapshot_prune_delete_and_save extractKey deadlineField (fun _ => false) today
          store).cleaned).existing_key_set).card =
      ((snapshot_prune_delete_and_save extractKey deadlineField (fun _ => false) today
        store).existing_key_set).card := by
  intro extractKey deadlineField today store failDel₂
  have hnil := expiredKeys_cleaned_nil extractKey deadlineField today store
  have h2 := snapshot_cleaned_of_no_expired extractKey deadlineField failDel₂ today
    (snapshot_prune_delete_and_save extractKey deadlineField (fun _ => false) today store).cleaned
    hnil
  rw [existing_key_set_eq extractKey deadlineField failDel₂ today
      (snapshot_prune_delete_and_save extractKey deadlineField (fun _ => false) today store).cleaned,
    h2,
    existing_key_set_eq extractKey deadlineField (fun _ => false) today store]

theorem processItems_delta (keyOf : Obj → Option String) (normalize : Obj → Obj)
    (existing : Finset String) (items : List RawItem) (st : ScanState) :
    (processItems keyOf normalize existing items st).1.delta =
      st.delta ++ pageKeptRows keyOf normalize existing items := by
  simp only [processItems]
  rw [processItems_eq]

theorem pageKeptRows_spec (keyOf : Obj → Option String) (normalize : Obj → Obj)
    (existing : Finset String) (items : List RawItem) (row : Obj)
    (h : row ∈ pageKeptRows keyOf normalize existing items) :
    ∃ key, keyOf row = some key ∧ key ∉ existing := by
  unfold pageKeptRows at h
  rw [List.mem_filterMap] at h
  obtain ⟨it, hit, heq⟩ := h
  cases it with
  | none => simp at heq
  | some obj =>
    simp only [] at heq
    cases hk : keyOf (normalize obj) with
    | none => rw [hk] at heq; simp at heq
    | some key =>
      rw [hk] at heq
      by_cases hm : key ∈ existing
      · simp [hm] at heq
      · simp [hm] at heq
        rw [← heq]
        exact ⟨key, hk, hm⟩

theorem scanAux_delta_keys (keyOf : Obj → Option String) (normalize : Obj → Obj)
    (fetchPage : Nat → List RawItem) (existing : Finset String)
    (maxPages : Nat) (stopWhenAllSeen : Bool) :
    ∀ fuel page : Nat, ∀ st r : ScanState,
      scanAux keyOf normalize fetchPage existing maxPages stopWhenAllSeen fuel page st = some r →
      ∀ row ∈ r.delta, row ∈ st.delta ∨ ∃ key, keyOf row = some key ∧ key ∉ existing := by
  intro fuel
  induction fuel with
  | zero =>
    intro page st r h
    simp [scanAux] at h
  | succ fuel ih =>
    intro page st r h row hrow
    rw [scanAux_succ] at h
    split at h
    · cases h
      exact Or.inl hrow
    · split at h
      · cases h
        exact Or.inl hrow
      · split at h
        · cases h
          dsimp only at hrow
          rw [processItems_delta] at hrow
          rcases List.mem_append.mp hrow with hl | hr
          · exact Or.inl hl
          · exact Or.inr (pageKeptRows_spec keyOf normalize existing (fetchPage page) row hr)
        · rcases ih (page + 1) _ r h row hrow with hl | hr
          · rw [processItems_delta] at hl
            rcases List.mem_append.mp hl with hl2 | hr2
            · exact Or.inl hl2
            · exact Or.inr (pageKeptRows_spec keyOf normalize existing (fetchPage page) row hr2)
          · exact Or.inr hr

/-! ### C1: the orchestrator passes the baseline key set to each adapter -/

/-- C1: the competitions orchestrator binds: its `extractor(...)` call uses
exactly the keyword parameters `unstop_competitions` accepts, and every
delta row of a completed competitions run has a composite key that is NOT
in the baseline's existing-key set (baseline-known rows are skipped). The
jobs orchestrator, however, does NOT bind: `jobs_service.job()` passes the
key set under the keyword `existing_job_ids`, which `unstop` does not
accept (it takes `existing_job_keys`), so the call raises `TypeError`
before any scan runs -- the existing-key set never reaches the jobs
adapter. -/
theorem orchestrator_existing_key_wiring :
    kwargsBind unstopJobsKeywords jobsServiceCallKeywords = false ∧
    kwargsBind unstopCompsKeywords compsServiceCallKeywords = true ∧
    (∀ normalize : Obj → Obj, ∀ fetchPage : Nat → List RawItem, ∀ failDel : String → Bool,
      ∀ today : PyDate, ∀ store : Store, ∀ r : ScanState,
      (competitions_run normalize fetchPage failDel today store).2 = some r →
      ∀ row ∈ r.delta, ∃ key, compKeyOf row = some key ∧
        key ∉ (competitions_run normalize fetchPage failDel today store).1.existing_key_set) := by
  refine ⟨by decide, by decide, ?_⟩
  intro normalize fetchPage failDel today store r h row hrow
  simp only [competitions_run, scrape_competitions] at h
  rcases scanAux_delta_keys compKeyOf normalize fetchPage
      (snapshot_prune_delete_and_save comp_baseline_key ("application_deadline") failDel today
        store).existing_key_set 1 true 2 1 ScanState.start r h row hrow with hl | hr
  · simp [ScanState.start] at hl
  · simpa [competitions_run] using hr

/-- Witness for C1's competitions conjunct at a concrete run: one baseline
record (id 7) and one fetched new item (id 8). -/
theorem orchestrator_existing_key_wiring_witness :
    ∃ key, compKeyOf ([(("competition_id"), PyVal.vint 8),
        (("competition_type"), PyVal.vstr ("hackathon"))]) = some key ∧
      key ∉ (competitions_run (fun o => o)
        (fun _ => [some ([(("competition_id"), PyVal.vint 8),
          (("competition_type"), PyVal.vstr ("hackathon"))])])
        (fun _ => false) ⟨2024, 5, 6⟩
        [(("k1"), some ([(("platform"), PyVal.vstr ("unstop")),
          (("competition_type"), PyVal.vstr ("hackathon")),
          (("competition_id"), PyVal.vint 7),
          (("application_deadline"), PyVal.vstr ("2030-01-01"))]))]).1.existing_key_set :=
  orchestrator_existing_key_wiring.2.2 (fun o => o)
    (fun _ => [some ([(("competition_id"), PyVal.vint 8),
      (("competition_type"), PyVal.vstr ("hackathon"))])])
    (fun _ => false) ⟨2024, 5, 6⟩
    [(("k1"), some ([(("platform"), PyVal.vstr ("unstop")),
      (("competition_type"), PyVal.vstr ("hackathon")),
      (("competition_id"), PyVal.vint 7),
      (("application_deadline"), PyVal.vstr ("2030-01-01"))]))]
    ⟨[([(("competition_id"), PyVal.vint 8), (("competition_type"), PyVal.vstr ("hackathon"))])],
      1, 1, 1, 0, 0, 0⟩
    (by decide)
    ([(("competition_id"), PyVal.vint 8), (("competition_type"), PyVal.vstr ("hackathon"))])
    (by decide)
